import Mathlib

/-!
# Verification of the odoo-ingest incremental synchronization engine

Shallow embedding of the TypeScript sources of `odoo-ingest`:

* `src/sync-runner.ts`   — cursor points, `maxCursorPoint`, `buildDomain`, the
  per-model page loop (`syncModel`), the per-model run wrapper (`runModel`) and
  the all-models driver (`run`);
* `src/odoo-client.ts`   — retry classification (`sendRequest`) and the retry
  loop with exponential backoff (`callRpc`);
* `src/raw-record-store.ts` — `upsertBatch` and its helpers;
* `src/state-store.ts`   — checkpoint rows, run rows and their SQL operations,
  modelled as pure updates of an explicit durable state;
* `src/cli.ts`           — the process exit code.

JavaScript values relevant to validation are modelled by `JVal`; JS string
comparison (`<`, `>`) is modelled by Lean's lexicographic `String` order (the
two agree on the ASCII timestamp strings this program compares).  Postgres
behaviour that the code relies on (one row per key, `ON CONFLICT` upserts,
additive counter updates, `BEGIN`/`COMMIT`/`ROLLBACK` atomicity) is modelled
with association lists and an explicit `runTransaction` combinator.  The
remote Odoo `search_read` endpoint is external to the repository and is
modelled (`semClient`) from the spec's fetch contract: filtered, ordered
ascending by `(cursor_field, id)`, bounded by the requested limit.
-/

/-- JavaScript values as far as this program's validation logic inspects them:
integer numbers, strings, null/undefined/false, and everything else. -/
inductive JVal where
  | jint (n : Int)
  | jstr (s : String)
  | jnull
  | jother
deriving DecidableEq, Repr

/-- One element of an Odoo domain (polish-notation filter list): the `"|"` and
`"&"` operators, or a `[field, operator, value]` comparison triple. -/
inductive DomTerm where
  | orOp
  | andOp
  | cond (field : String) (op : String) (value : JVal)
deriving DecidableEq, Repr

deriving instance DecidableEq for Except

/-- Lexicographic comparison of character lists, the order JS `<`/`>` imposes
on the strings this program compares (they agree on such ASCII timestamp
strings).  Defined from scratch so that it evaluates inside the kernel. -/
def charListLtb : List Char → List Char → Bool
  | _, [] => false
  | [], _ :: _ => true
  | a :: as, b :: bs =>
      if a < b then true
      else if b < a then false
      else charListLtb as bs

theorem charListLtb_iff_lex : ∀ (as bs : List Char),
    charListLtb as bs = true ↔ List.Lex (· < ·) as bs := by
  intro as
  induction as with
  | nil =>
      intro bs
      cases bs with
      | nil =>
          constructor
          · intro h; cases h
          · intro h; cases h
      | cons b bs =>
          constructor
          · intro _; exact List.Lex.nil
          · intro _; rfl
  | cons a as ih =>
      intro bs
      cases bs with
      | nil =>
          constructor
          · intro h; cases h
          · intro h; cases h
      | cons b bs =>
          by_cases hab : a < b
          · constructor
            · intro _; exact List.Lex.rel hab
            · intro _; simp [charListLtb, hab]
          · by_cases hba : b < a
            · constructor
              · intro h; simp [charListLtb, hab, hba] at h
              · intro h
                cases h with
                | cons h' => exact absurd hba (lt_irrefl a)
                | rel h' => exact absurd h' hab
            · have heq : a = b := le_antisymm (not_lt.mp hba) (not_lt.mp hab)
              constructor
              · intro h
                have h' : charListLtb as bs = true := by
                  simpa [charListLtb, hab, hba] using h
                exact heq ▸ List.Lex.cons ((ih bs).mp h')
              · intro h
                simp only [charListLtb, if_neg hab, if_neg hba]
                cases h with
                | cons h' => exact (ih bs).mpr h'
                | rel h' => exact absurd h' hab

/-- String comparison `a < b` as JS evaluates it. -/
def strLtb (a b : String) : Bool := charListLtb a.data b.data

theorem strLtb_iff (a b : String) : strLtb a b = true ↔ a < b := by
  rw [String.lt_iff_toList_lt]
  exact charListLtb_iff_lex a.data b.data

/-- `CursorPoint` from `sync-runner.ts`: a cursor value paired with the record
id tie-breaker. -/
structure CursorPoint where
  value : String
  id : Int
deriving DecidableEq, Repr

/-- Strict lexicographic order on cursor points: the comparison
`cursor > max.value || (cursor === max.value && id > max.id)` used by
`maxCursorPoint` and by the keyset continuation predicate. -/
def cpLtP (a b : CursorPoint) : Prop :=
  a.value < b.value ∨ (a.value = b.value ∧ a.id < b.id)

instance (a b : CursorPoint) : Decidable (cpLtP a b) := by
  unfold cpLtP; infer_instance

/-- Boolean form of `cpLtP`, used inside the executable definitions. -/
def cpLtb (a b : CursorPoint) : Bool :=
  strLtb a.value b.value || (decide (a.value = b.value) && decide (a.id < b.id))

theorem cpLtb_iff (a b : CursorPoint) : cpLtb a b = true ↔ cpLtP a b := by
  simp [cpLtb, cpLtP, strLtb_iff]

theorem cpLtP_irrefl (a : CursorPoint) : ¬ cpLtP a a := by
  simp [cpLtP]

theorem cpLtP_trans {a b c : CursorPoint} (h1 : cpLtP a b) (h2 : cpLtP b c) :
    cpLtP a c := by
  rcases h1 with hv | ⟨hv, hi⟩ <;> rcases h2 with hv' | ⟨hv', hi'⟩
  · exact Or.inl (lt_trans hv hv')
  · exact Or.inl (hv' ▸ hv)
  · exact Or.inl (hv ▸ hv')
  · exact Or.inr ⟨hv.trans hv', lt_trans hi hi'⟩

theorem cpLtP_total (a b : CursorPoint) : cpLtP a b ∨ a = b ∨ cpLtP b a := by
  rcases lt_trichotomy a.value b.value with hv | hv | hv
  · exact Or.inl (Or.inl hv)
  · rcases lt_trichotomy a.id b.id with hi | hi | hi
    · exact Or.inl (Or.inr ⟨hv, hi⟩)
    · refine Or.inr (Or.inl ?_)
      cases a; cases b; simp_all
    · exact Or.inr (Or.inr (Or.inr ⟨hv.symm, hi⟩))
  · exact Or.inr (Or.inr (Or.inl hv))

theorem cpLtb_false_of_not (a b : CursorPoint) (h : ¬ cpLtP a b) :
    cpLtb a b = false := by
  rcases hb : cpLtb a b with _ | _
  · rfl
  · exact absurd ((cpLtb_iff a b).mp hb) h

theorem not_cpLtP_of_false {a b : CursorPoint} (h : cpLtb a b = false) :
    ¬ cpLtP a b := by
  intro hc
  rw [(cpLtb_iff a b).mpr hc] at h
  cases h

/-- First-match association lookup (also used to model the three Postgres
tables further below; keys are unique in practice). -/
def alookup {κ β : Type} [DecidableEq κ] (k : κ) : List (κ × β) → Option β
  | [] => none
  | (k', v) :: rest => if k' = k then some v else alookup k rest

/-- SQL `UPDATE ... WHERE key = k`: rewrite every row with the given key. -/
def aupdate {κ β : Type} [DecidableEq κ] (k : κ) (f : β → β) (l : List (κ × β)) :
    List (κ × β) :=
  l.map fun p => if p.1 = k then (p.1, f p.2) else p

/-- SQL `INSERT ... ON CONFLICT (key) DO UPDATE`: update the existing row in
place, or prepend a fresh one. -/
def aupsert {κ β : Type} [DecidableEq κ] (k : κ) (f : Option β → β)
    (l : List (κ × β)) : List (κ × β) :=
  match alookup k l with
  | some _ => l.map fun p => if p.1 = k then (p.1, f (some p.2)) else p
  | none => (k, f none) :: l

/-- The test `s.trim() === ""`: the string is all whitespace. -/
def isBlank (s : String) : Bool := s.data.all Char.isWhitespace

/-- `parseInt(s, 10)` on an all-digits string. -/
def digitsToNat (s : String) : Nat :=
  s.data.foldl (fun acc c => acc * 10 + (c.toNat - 48)) 0

/-- A fetched record as the sync runner sees it: the raw `id` value and the
raw field map (`record[field]`). -/
structure OdooRecord where
  id : JVal
  fields : List (String × JVal)
deriving DecidableEq, Repr

/-- Property access `record[f]` on a fetched record: the `id` property is the
record's id, other properties come from the field map, absent ones are
`undefined` (modelled as `jnull`, which all the validation code treats the
same way). -/
def getField (r : OdooRecord) (f : String) : JVal :=
  if f = "id" then r.id
  else
    match alookup f r.fields with
    | some v => v
    | none => JVal.jnull

/-- The regex test `/^\d+$/`: a non-empty, all-digits string. -/
def digitsOnly (s : String) : Bool :=
  !s.data.isEmpty && s.data.all Char.isDigit

/-- `parseRecordId` from `sync-runner.ts` (lines 23–33): an integer number is
taken as-is, an all-digits string is parsed, anything else throws. -/
def parseRecordId (v : JVal) (modelName : String) : Except String Int :=
  match v with
  | JVal.jint n => Except.ok n
  | JVal.jstr s =>
      if digitsOnly s then Except.ok (digitsToNat s : Nat)
      else Except.error s!"Record in model {modelName} has an invalid id value."
  | _ => Except.error s!"Record in model {modelName} has an invalid id value."

/-- `getRecordCursor` from `sync-runner.ts` (lines 35–41): the cursor field
must hold a string whose trim is non-empty. -/
def getRecordCursor (r : OdooRecord) (modelName : String) (cursorField : String) :
    Except String String :=
  match getField r cursorField with
  | JVal.jstr s =>
      if isBlank s then
        Except.error s!"Record in model {modelName} has invalid {cursorField} cursor value."
      else Except.ok s
  | _ => Except.error s!"Record in model {modelName} has invalid {cursorField} cursor value."

/-- The cursor point of one record: id first, then cursor value, matching the
evaluation order of `maxCursorPoint`'s loop body (lines 47–48). -/
def recordPoint (r : OdooRecord) (modelName : String) (cursorField : String) :
    Except String CursorPoint :=
  match parseRecordId r.id modelName with
  | Except.error e => Except.error e
  | Except.ok i =>
      match getRecordCursor r modelName cursorField with
      | Except.error e => Except.error e
      | Except.ok c => Except.ok ⟨c, i⟩

/-- Loop of `maxCursorPoint` (lines 46–58): fold the strict-improvement
comparison over the records, threading the current maximum. -/
def maxCursorGo (modelName cursorField : String) :
    List OdooRecord → Option CursorPoint → Except String CursorPoint
  | [], none => Except.error s!"Unable to compute max cursor for model {modelName}."
  | [], some mx => Except.ok mx
  | r :: rs, acc =>
      match recordPoint r modelName cursorField with
      | Except.error e => Except.error e
      | Except.ok p =>
          match acc with
          | none => maxCursorGo modelName cursorField rs (some p)
          | some mx =>
              maxCursorGo modelName cursorField rs (some (if cpLtb mx p then p else mx))

/-- `maxCursorPoint` from `sync-runner.ts` (lines 43–65). -/
def maxCursorPoint (records : List OdooRecord) (modelName cursorField : String) :
    Except String CursorPoint :=
  maxCursorGo modelName cursorField records none

theorem maxCursorGo_attained (modelName cursorField : String) :
    ∀ (l : List OdooRecord) (acc : Option CursorPoint) (c : CursorPoint),
      maxCursorGo modelName cursorField l acc = Except.ok c →
      (∃ r ∈ l, recordPoint r modelName cursorField = Except.ok c) ∨ acc = some c := by
  intro l
  induction l with
  | nil =>
      intro acc c h
      cases acc with
      | none => simp [maxCursorGo] at h
      | some mx => simp [maxCursorGo] at h; simp [h]
  | cons r rs ih =>
      intro acc c h
      simp only [maxCursorGo] at h
      cases hrp : recordPoint r modelName cursorField with
      | error e => rw [hrp] at h; cases h
      | ok p =>
          rw [hrp] at h
          cases acc with
          | none =>
              rcases ih (some p) c h with ⟨r', hr', hok⟩ | hacc
              · exact Or.inl ⟨r', List.mem_cons_of_mem r hr', hok⟩
              · refine Or.inl ⟨r, List.mem_cons_self r rs, ?_⟩
                injection hacc with hpc
                rw [hpc] at hrp; exact hrp
          | some mx =>
              rcases ih _ c h with ⟨r', hr', hok⟩ | hacc
              · exact Or.inl ⟨r', List.mem_cons_of_mem r hr', hok⟩
              · injection hacc with hpc
                by_cases hlt : cpLtb mx p = true
                · refine Or.inl ⟨r, List.mem_cons_self r rs, ?_⟩
                  rw [hlt] at hpc; simp at hpc
                  rw [hpc] at hrp; exact hrp
                · rw [eq_false_of_ne_true hlt] at hpc; simp at hpc
                  exact Or.inr (by rw [hpc])

theorem maxCursorGo_all_parse (modelName cursorField : String) :
    ∀ (l : List OdooRecord) (acc : Option CursorPoint) (c : CursorPoint),
      maxCursorGo modelName cursorField l acc = Except.ok c →
      ∀ r ∈ l, ∃ q, recordPoint r modelName cursorField = Except.ok q := by
  intro l
  induction l with
  | nil => intro acc c _ r hr; cases hr
  | cons r rs ih =>
      intro acc c h r' hr'
      simp only [maxCursorGo] at h
      cases hrp : recordPoint r modelName cursorField with
      | error e => rw [hrp] at h; cases h
      | ok p =>
          rw [hrp] at h
          rcases List.mem_cons.mp hr' with heq | hmem
          · exact ⟨p, heq ▸ hrp⟩
          · cases acc with
            | none => exact ih (some p) c h r' hmem
            | some mx => exact ih _ c h r' hmem

theorem maxCursorGo_ub (modelName cursorField : String) :
    ∀ (l : List OdooRecord) (acc : Option CursorPoint) (c : CursorPoint),
      maxCursorGo modelName cursorField l acc = Except.ok c →
      (∀ a, acc = some a → ¬ cpLtP c a) ∧
      (∀ r ∈ l, ∀ q, recordPoint r modelName cursorField = Except.ok q → ¬ cpLtP c q) := by
  intro l
  induction l with
  | nil =>
      intro acc c h
      refine ⟨?_, by intro r hr; cases hr⟩
      intro a ha
      cases acc with
      | none => simp [maxCursorGo] at h
      | some mx =>
          simp [maxCursorGo] at h
          injection ha with ha'
          rw [← ha', ← h]
          exact cpLtP_irrefl mx
  | cons r rs ih =>
      intro acc c h
      simp only [maxCursorGo] at h
      cases hrp : recordPoint r modelName cursorField with
      | error e => rw [hrp] at h; cases h
      | ok p =>
          rw [hrp] at h
          cases acc with
          | none =>
              obtain ⟨hacc, hrest⟩ := ih (some p) c h
              have hcp : ¬ cpLtP c p := hacc p rfl
              refine ⟨?_, ?_⟩
              · intro a ha; cases ha
              intro r' hr' q hq
              rcases List.mem_cons.mp hr' with heq | hmem
              · rw [heq] at hq; rw [hq] at hrp
                injection hrp with hqp; rw [hqp]; exact hcp
              · exact hrest r' hmem q hq
          | some mx =>
              obtain ⟨hacc, hrest⟩ := ih _ c h
              have hcacc : ¬ cpLtP c (if cpLtb mx p then p else mx) := hacc _ rfl
              -- c dominates both the old accumulator and the new point
              have hcmx : ¬ cpLtP c mx := by
                by_cases hlt : cpLtb mx p = true
                · rw [if_pos hlt] at hcacc
                  intro hcm
                  exact hcacc (cpLtP_trans hcm ((cpLtb_iff mx p).mp hlt))
                · rw [if_neg hlt] at hcacc; exact hcacc
              have hcp : ¬ cpLtP c p := by
                by_cases hlt : cpLtb mx p = true
                · rw [if_pos hlt] at hcacc; exact hcacc
                · rw [if_neg hlt] at hcacc
                  intro hcp'
                  have hnot : ¬ cpLtP mx p := fun hh => hlt ((cpLtb_iff mx p).mpr hh)
                  rcases cpLtP_total p mx with hpm | hpm | hpm
                  · exact hcacc (cpLtP_trans hcp' hpm)
                  · exact hcacc (hpm ▸ hcp')
                  · exact hnot hpm
              refine ⟨?_, ?_⟩
              · intro a ha; injection ha with ha'; rw [← ha']; exact hcmx
              · intro r' hr' q hq
                rcases List.mem_cons.mp hr' with heq | hmem
                · rw [heq] at hq; rw [hq] at hrp
                  injection hrp with hqp; rw [hqp]; exact hcp
                · exact hrest r' hmem q hq

theorem maxCursorPoint_attained {records : List OdooRecord} {modelName cursorField : String}
    {c : CursorPoint} (h : maxCursorPoint records modelName cursorField = Except.ok c) :
    ∃ r ∈ records, recordPoint r modelName cursorField = Except.ok c := by
  rcases maxCursorGo_attained modelName cursorField records none c h with hex | hacc
  · exact hex
  · cases hacc

/-! ## Calendar arithmetic

`syncModel` manipulates timestamps through JavaScript `Date`: parse an ISO
string to epoch milliseconds, subtract the overlap in seconds, reformat as a
timezone-less Odoo timestamp (`toOdooTimestampUtc`).  We model instants as
epoch seconds (the program only ever uses whole seconds) and implement the
proleptic-Gregorian conversions explicitly so everything evaluates. -/

/-- Decimal digit character of `n % 10`. -/
def digitChar10 (n : Nat) : Char := Char.ofNat (48 + n % 10)

/-- Two-digit zero-padded decimal. -/
def pad2 (n : Nat) : String := String.mk [digitChar10 (n / 10), digitChar10 n]

/-- Four-digit zero-padded decimal (years 0–9999, the range `toISOString`
prints without an expanded sign). -/
def pad4 (n : Nat) : String :=
  String.mk [digitChar10 (n / 1000), digitChar10 (n / 100), digitChar10 (n / 10), digitChar10 n]

/-- Civil date from days since the Unix epoch (proleptic Gregorian). -/
def civilFromDays (z : Int) : Int × Nat × Nat :=
  let z' := z + 719468
  let era := Int.fdiv z' 146097
  let doe := (z' - era * 146097).toNat
  let yoe := (doe - doe / 1460 + doe / 36524 - doe / 146096) / 365
  let y := (yoe : Int) + era * 400
  let doy := doe - (365 * yoe + yoe / 4 - yoe / 100)
  let mp := (5 * doy + 2) / 153
  let d := doy - (153 * mp + 2) / 5 + 1
  let m := if mp < 10 then mp + 3 else mp - 9
  (if m ≤ 2 then y + 1 else y, m, d)

/-- Days since the Unix epoch from a civil date (proleptic Gregorian). -/
def daysFromCivil (y : Int) (m d : Nat) : Int :=
  let y' := if m ≤ 2 then y - 1 else y
  let era := Int.fdiv y' 400
  let yoe := (y' - era * 400).toNat
  let mp := if 2 < m then m - 3 else m + 9
  let doy := (153 * mp + 2) / 5 + d - 1
  let doe := yoe * 365 + yoe / 4 - yoe / 100 + doy
  era * 146097 + (doe : Int) - 719468

/-- `toOdooTimestampUtc` from `sync-runner.ts` (lines 18–21): format an
instant as `YYYY-MM-DD HH:MM:SS` (the two slices of `toISOString`). -/
def toOdooTimestampUtc (t : Int) : String :=
  let days := Int.fdiv t 86400
  let sod := (t - days * 86400).toNat
  let ymd := civilFromDays days
  pad4 ymd.1.toNat ++ "-" ++ pad2 ymd.2.1 ++ "-" ++ pad2 ymd.2.2 ++ " " ++
    pad2 (sod / 3600) ++ ":" ++ pad2 (sod % 3600 / 60) ++ ":" ++ pad2 (sod % 60)

/-- Numeric value of a decimal digit character. -/
def digitVal (c : Char) : Nat := c.toNat - 48

/-- Parse `new Date(s)` for the ISO strings this program reads back from the
checkpoint store (`Date.toISOString` output, `YYYY-MM-DDTHH:MM:SS.mmmZ`),
returning epoch seconds; anything else is an invalid date (`NaN`).
Sub-second digits are truncated, as the later `toOdooTimestampUtc` slice
drops them. -/
def parseIsoUtc (s : String) : Option Int :=
  match s.data with
  | [y1, y2, y3, y4, '-', m1, m2, '-', d1, d2, 'T',
     h1, h2, ':', n1, n2, ':', s1, s2, '.', f1, f2, f3, 'Z'] =>
      if ([y1, y2, y3, y4, m1, m2, d1, d2, h1, h2, n1, n2, s1, s2, f1, f2, f3].all
            Char.isDigit) then
        let y : Nat := 1000 * digitVal y1 + 100 * digitVal y2 + 10 * digitVal y3 + digitVal y4
        let mo : Nat := 10 * digitVal m1 + digitVal m2
        let da : Nat := 10 * digitVal d1 + digitVal d2
        let hh : Nat := 10 * digitVal h1 + digitVal h2
        let mi : Nat := 10 * digitVal n1 + digitVal n2
        let ss : Nat := 10 * digitVal s1 + digitVal s2
        if 1 ≤ mo && mo ≤ 12 && 1 ≤ da && da ≤ 31 && hh ≤ 23 && mi ≤ 59 && ss ≤ 59 then
          some (daysFromCivil (y : Int) mo da * 86400 + (hh * 3600 + mi * 60 + ss : Nat))
        else none
      else none
  | _ => none

/-- Parse a timezone-less Odoo timestamp `YYYY-MM-DD HH:MM:SS`, the format
`updateState` sends to Postgres (with `+00` appended); models the
`timestamptz` cast, which fails on anything else. -/
def parseOdooTs (s : String) : Option Int :=
  match s.data with
  | [y1, y2, y3, y4, '-', m1, m2, '-', d1, d2, ' ',
     h1, h2, ':', n1, n2, ':', s1, s2] =>
      if ([y1, y2, y3, y4, m1, m2, d1, d2, h1, h2, n1, n2, s1, s2].all Char.isDigit) then
        let y : Nat := 1000 * digitVal y1 + 100 * digitVal y2 + 10 * digitVal y3 + digitVal y4
        let mo : Nat := 10 * digitVal m1 + digitVal m2
        let da : Nat := 10 * digitVal d1 + digitVal d2
        let hh : Nat := 10 * digitVal h1 + digitVal h2
        let mi : Nat := 10 * digitVal n1 + digitVal n2
        let ss : Nat := 10 * digitVal s1 + digitVal s2
        if 1 ≤ mo && mo ≤ 12 && 1 ≤ da && da ≤ 31 && hh ≤ 23 && mi ≤ 59 && ss ≤ 59 then
          some (daysFromCivil (y : Int) mo da * 86400 + (hh * 3600 + mi * 60 + ss : Nat))
        else none
      else none
  | _ => none

/-- Render an instant the way `pg` + `Date.toISOString` hand it back to
`getState`: `YYYY-MM-DDTHH:MM:SS.000Z`. -/
def isoOfEpoch (t : Int) : String :=
  let days := Int.fdiv t 86400
  let sod := (t - days * 86400).toNat
  let ymd := civilFromDays days
  pad4 ymd.1.toNat ++ "-" ++ pad2 ymd.2.1 ++ "-" ++ pad2 ymd.2.2 ++ "T" ++
    pad2 (sod / 3600) ++ ":" ++ pad2 (sod % 3600 / 60) ++ ":" ++ pad2 (sod % 60) ++ ".000Z"

/-! ## Configuration and the fetch call -/

/-- `ModelConfig` from `types.ts`. -/
structure ModelCfg where
  name : String
  fields : List String
  domain : List DomTerm
  cursor_field : String
  overlap_seconds : Nat
  page_size : Nat
deriving DecidableEq, Repr

/-- `buildDomain` from `sync-runner.ts` (lines 67–85): base domain, then the
window lower bound (skipped for a JS-falsy, i.e. empty, window start), then
the keyset continuation disjunction. -/
def buildDomain (m : ModelCfg) (windowStart : Option String)
    (pageCursor : Option CursorPoint) : List DomTerm :=
  m.domain
    ++ (match windowStart with
        | some s => if s = "" then [] else [DomTerm.cond m.cursor_field ">=" (JVal.jstr s)]
        | none => [])
    ++ (match pageCursor with
        | some p =>
            [DomTerm.orOp,
             DomTerm.cond m.cursor_field ">" (JVal.jstr p.value),
             DomTerm.andOp,
             DomTerm.cond m.cursor_field "=" (JVal.jstr p.value),
             DomTerm.cond "id" ">" (JVal.jint p.id)]
        | none => [])

/-- The argument tuple of one `searchRead` call. -/
structure CallArgs where
  model : String
  domain : List DomTerm
  fields : List String
  order : String
  limit : Nat
deriving DecidableEq, Repr

/-- The `searchRead` invocation of `syncModel` (lines 191–193): domain from
`buildDomain`, order `"<cursor_field> asc, id asc"`, limit `page_size`. -/
def fetchArgs (m : ModelCfg) (windowStart : Option String)
    (pageCursor : Option CursorPoint) : CallArgs :=
  { model := m.name
    domain := buildDomain m windowStart pageCursor
    fields := m.fields
    order := m.cursor_field ++ " asc, id asc"
    limit := m.page_size }

/-! ## The durable store

Association-list model of the three Postgres tables (via `alookup`,
`aupdate`, `aupsert` above).  A key occurs at most once in practice (primary
keys); `alookup` returns the first match. -/

/-- One row of `odoo_raw_records` (minus the `synced_at` wall-clock column,
which nothing in the claims observes). -/
structure RawRow where
  write_date : Option String
  create_date : Option String
  payload : OdooRecord
  run_id : String
deriving DecidableEq, Repr

/-- `odoo_sync_state` row: the checkpoint.  `cursor_value` is the stored
`timestamptz` as epoch seconds. -/
structure StateRow where
  cursor_field : String
  cursor_value : Option Int
  cursor_id : Option Int
  last_success_run_id : Option String
deriving DecidableEq, Repr

/-- Run status enum of `odoo_sync_runs`. -/
inductive RunStatus where
  | running
  | success
  | failed
deriving DecidableEq, Repr

/-- `odoo_sync_runs` row (timestamps omitted; counters default to zero per
the schema, modelled from the spec's run-record contract). -/
structure RunRow where
  model : String
  status : RunStatus
  records_read : Nat
  records_upserted : Nat
  pages_processed : Nat
  error_message : Option String
deriving DecidableEq, Repr

/-- The three tables: raw records keyed by `(model, odoo_id)`, checkpoints
keyed by model name, runs keyed by run id. -/
structure DurableState where
  raw : List ((String × Int) × RawRow)
  states : List (String × StateRow)
  runs : List (String × RunRow)
deriving DecidableEq, Repr

/-- The summary of a run row that the failure-propagation claims observe. -/
def runSummary (r : RunRow) : String × RunStatus × Option String :=
  (r.model, r.status, r.error_message)

/-! ## Raw record store (`raw-record-store.ts`) -/

/-- The regex `/^\d{4}-\d{2}-\d{2} \d{2}:\d{2}:\d{2}$/`: a shape-only test,
with no range check on the components. -/
def odooTsShape (s : String) : Bool :=
  match s.data with
  | [y1, y2, y3, y4, '-', m1, m2, '-', d1, d2, ' ',
     h1, h2, ':', n1, n2, ':', s1, s2] =>
      [y1, y2, y3, y4, m1, m2, d1, d2, h1, h2, n1, n2, s1, s2].all Char.isDigit
  | _ => false

/-- `normalizeOdooTimestamp` (lines 5–17): non-strings and blank strings
become `NULL`; a `YYYY-MM-DD HH:MM:SS`-shaped string gets `+00` appended; any
other string passes through. -/
def normalizeOdooTimestamp (v : JVal) : Option String :=
  match v with
  | JVal.jstr s =>
      if isBlank s then none
      else if odooTsShape s then some (s ++ "+00")
      else some s
  | _ => none

/-- `parseRecordId` from `raw-record-store.ts` (lines 19–30); same logic as
the sync-runner copy, different message. -/
def parseRecordIdStore (v : JVal) (model : String) : Except String Int :=
  match v with
  | JVal.jint n => Except.ok n
  | JVal.jstr s =>
      if digitsOnly s then Except.ok (digitsToNat s : Nat)
      else Except.error s!"Record in model {model} is missing a valid integer id."
  | _ => Except.error s!"Record in model {model} is missing a valid integer id."

/-- One `VALUES` tuple of the batch insert (lines 41–55). -/
def buildRow (model runId : String) (r : OdooRecord) : Except String (Int × RawRow) :=
  match parseRecordIdStore r.id model with
  | Except.error e => Except.error e
  | Except.ok oid =>
      Except.ok (oid,
        { write_date := normalizeOdooTimestamp (getField r "write_date")
          create_date := normalizeOdooTimestamp (getField r "create_date")
          payload := r
          run_id := runId })

/-- Duplicate key detection: a multi-row `INSERT ... ON CONFLICT DO UPDATE`
errors when the same key appears twice in one statement. -/
def hasDupKey : List Int → Bool
  | [] => false
  | k :: ks => ks.contains k || hasDupKey ks

/-- `upsertBatch` (lines 33–80): empty batches return 0 without touching the
store; otherwise every record must yield an integer id (all-or-nothing), the
rows are upserted by `(model, odoo_id)`, and the input length is returned. -/
def upsertBatch (ds : DurableState) (model : String) (records : List OdooRecord)
    (runId : String) : Except String (DurableState × Nat) :=
  if records.length = 0 then Except.ok (ds, 0)
  else
    match records.mapM (buildRow model runId) with
    | Except.error e => Except.error e
    | Except.ok rows =>
        if hasDupKey (rows.map Prod.fst) then
          Except.error "ON CONFLICT DO UPDATE command cannot affect row a second time"
        else
          Except.ok
            ({ ds with
                raw := rows.foldl
                  (fun acc row => aupsert (model, row.1) (fun _ => row.2) acc) ds.raw },
             records.length)

/-! ## State store (`state-store.ts`) -/

/-- `getState` (lines 17–47): the checkpoint row for a model, if any. -/
def getStateDb (ds : DurableState) (model : String) : Option StateRow :=
  alookup model ds.states

/-- `updateState` (lines 49–75): upsert the checkpoint row, overwriting
cursor field, value and id.  The cursor value is sent as `"<value>+00"` and
cast by Postgres; a string that is not an Odoo timestamp fails the statement. -/
def updateStateDb (ds : DurableState) (model cursorField cursorValue : String)
    (cursorId : Int) : Except String DurableState :=
  match parseOdooTs cursorValue with
  | none => Except.error s!"invalid input syntax for type timestamp: {cursorValue}"
  | some t =>
      Except.ok
        { ds with
            states := aupsert model
              (fun old =>
                match old with
                | some r =>
                    { r with cursor_field := cursorField, cursor_value := some t,
                             cursor_id := some cursorId }
                | none =>
                    { cursor_field := cursorField, cursor_value := some t,
                      cursor_id := some cursorId, last_success_run_id := none })
              ds.states }

/-- `markLastSuccessRun` (lines 77–94): upsert that only ever touches
`last_success_run_id` on an existing row. -/
def markLastSuccessDb (ds : DurableState) (model cursorField runId : String) :
    DurableState :=
  { ds with
      states := aupsert model
        (fun old =>
          match old with
          | some r => { r with last_success_run_id := some runId }
          | none =>
              { cursor_field := cursorField, cursor_value := none,
                cursor_id := none, last_success_run_id := some runId })
        ds.states }

/-- `startRun` (lines 96–104): insert a fresh `running` row with zeroed
counters (run ids are fresh UUIDs, so the plain insert cannot conflict). -/
def startRunDb (ds : DurableState) (model runId : String) : DurableState :=
  { ds with
      runs := (runId,
        { model := model, status := RunStatus.running, records_read := 0,
          records_upserted := 0, pages_processed := 0, error_message := none })
        :: ds.runs }

/-- `updateRunProgress` (lines 106–123): additive counter update on the run
row; an unknown run id matches no row, as in SQL. -/
def updateRunProgressDb (ds : DurableState) (runId : String)
    (recordsReadDelta recordsUpsertedDelta pagesProcessedDelta : Nat) : DurableState :=
  { ds with
      runs := aupdate runId
        (fun r =>
          { r with
              records_read := r.records_read + recordsReadDelta,
              records_upserted := r.records_upserted + recordsUpsertedDelta,
              pages_processed := r.pages_processed + pagesProcessedDelta })
        ds.runs }

/-- `finishRun` (lines 125–137): set terminal status and error text (reset to
`NULL` when absent, as `errorMessage ?? null` does). -/
def finishRunDb (ds : DurableState) (runId : String) (status : RunStatus)
    (errorMessage : Option String) : DurableState :=
  { ds with
      runs := aupdate runId
        (fun r => { r with status := status, error_message := errorMessage })
        ds.runs }

/-! ## Transactions -/

/-- `BEGIN`/`COMMIT`/`ROLLBACK` (sync-runner.ts lines 201–227): run a body
against the durable state; a failing body leaves the durable state exactly as
it was and reports the error. -/
def runTransaction (ds : DurableState) (tx : DurableState → Except String DurableState) :
    DurableState × Option String :=
  match tx ds with
  | Except.ok ds' => (ds', none)
  | Except.error e => (ds, some e)

/-- The body of one page's transaction (lines 203–219), in source order:
upsert the batch, advance the checkpoint to the page's max cursor point, add
the page's counters to the run row. -/
def pageTransaction (m : ModelCfg) (records : List OdooRecord) (runId : String)
    (maxCursor : CursorPoint) (ds : DurableState) : Except String DurableState :=
  match upsertBatch ds m.name records runId with
  | Except.error e => Except.error e
  | Except.ok (ds1, upsertedCount) =>
      match updateStateDb ds1 m.name m.cursor_field maxCursor.value maxCursor.id with
      | Except.error e => Except.error e
      | Except.ok ds2 =>
          Except.ok (updateRunProgressDb ds2 runId records.length upsertedCount 1)

/-! ## Window start and the page loop (`sync-runner.ts`) -/

/-- Window-start computation of `syncModel` (lines 178–186): no stored cursor
value (no checkpoint row, or a `NULL`/falsy value) means no lower bound; an
unparseable stored value throws; otherwise the overlap in seconds is
subtracted and the instant reformatted as an Odoo timestamp. -/
def computeWindowStart (m : ModelCfg) (cursorValue : Option String) :
    Except String (Option String) :=
  match cursorValue with
  | none => Except.ok none
  | some s =>
      if s = "" then Except.ok none
      else
        match parseIsoUtc s with
        | none => Except.error s!"Invalid cursor timestamp in state for model {m.name}."
        | some t => Except.ok (some (toOdooTimestampUtc (t - (m.overlap_seconds : Int))))

/-- Terminal status of the page loop.  `fuelOut` is the artefact of bounding
the unbounded `while (true)` by fuel; the termination claim shows it is never
reached on a finite dataset. -/
inductive LoopStatus where
  | done
  | failed (e : String)
  | fuelOut
deriving DecidableEq, Repr

/-- Result of the page loop, with two ghost observations that do not exist in
the source but merely record what happened: the committed checkpoints in
order, and the number of `searchRead` calls made. -/
structure PageLoopOut where
  status : LoopStatus
  ds : DurableState
  commits : List CursorPoint
  fetches : Nat
deriving DecidableEq, Repr

/-- The `while (true)` page loop of `syncModel` (lines 190–242): fetch a page
with `fetchArgs`; an empty page ends the loop; otherwise compute the page's
max cursor point, commit the page transaction, and continue from the max
cursor point unless the page was shorter than the page size. -/
def syncPages (client : CallArgs → List OdooRecord) (m : ModelCfg) (runId : String)
    (windowStart : Option String) :
    Nat → Option CursorPoint → DurableState → PageLoopOut
  | 0, _, ds => ⟨LoopStatus.fuelOut, ds, [], 0⟩
  | fuel + 1, pageCursor, ds =>
      let records := client (fetchArgs m windowStart pageCursor)
      if records.length = 0 then ⟨LoopStatus.done, ds, [], 1⟩
      else
        match maxCursorPoint records m.name m.cursor_field with
        | Except.error e => ⟨LoopStatus.failed e, ds, [], 1⟩
        | Except.ok maxCursor =>
            match runTransaction ds (pageTransaction m records runId maxCursor) with
            | (dsr, some e) => ⟨LoopStatus.failed e, dsr, [], 1⟩
            | (dsr, none) =>
                if records.length < m.page_size then ⟨LoopStatus.done, dsr, [maxCursor], 1⟩
                else
                  let out := syncPages client m runId windowStart fuel (some maxCursor) dsr
                  ⟨out.status, out.ds, maxCursor :: out.commits, out.fetches + 1⟩

/-- `syncModel` (lines 167–243): read the checkpoint, compute the window
start, run the page loop.  The state read hands back the stored cursor value
the way `getState` renders it (ISO string). -/
def syncModelM (client : CallArgs → List OdooRecord) (m : ModelCfg) (runId : String)
    (fuel : Nat) (ds : DurableState) : Except (String × DurableState) DurableState :=
  let cursorValue := (getStateDb ds m.name).bind fun r => r.cursor_value.map isoOfEpoch
  match computeWindowStart m cursorValue with
  | Except.error e => Except.error (e, ds)
  | Except.ok windowStart =>
      let out := syncPages client m runId windowStart fuel none ds
      match out.status with
      | LoopStatus.done => Except.ok out.ds
      | LoopStatus.failed e => Except.error (e, out.ds)
      | LoopStatus.fuelOut => Except.error ("page loop fuel exhausted", out.ds)

/-- `runModel` (lines 147–165): start the run row, sync, and finalize the row
as `success` (after `markLastSuccessRun`) or `failed` with the error text.
Returns the success flag that `run` aggregates. -/
def runModelM (client : CallArgs → List OdooRecord) (m : ModelCfg) (runId : String)
    (fuel : Nat) (ds : DurableState) : DurableState × Bool :=
  let ds0 := startRunDb ds m.name runId
  match syncModelM client m runId fuel ds0 with
  | Except.ok ds1 =>
      (finishRunDb (markLastSuccessDb ds1 m.name m.cursor_field runId) runId
        RunStatus.success none, true)
  | Except.error (e, ds1) =>
      (finishRunDb ds1 runId RunStatus.failed (some e), false)

/-- The per-model loop of `run` (lines 129–134): try every configured model
in order, collecting the names of the ones that failed. -/
def runAllM (clientFor : ModelCfg → CallArgs → List OdooRecord) (fuel : Nat) :
    List (ModelCfg × String) → DurableState → DurableState × List String
  | [], ds => (ds, [])
  | (m, runId) :: rest, ds =>
      let step := runModelM (clientFor m) m runId fuel ds
      let outRest := runAllM clientFor fuel rest step.1
      (outRest.1, (if step.2 then [] else [m.name]) ++ outRest.2)

/-- End of `run` (lines 136–138): throw iff any model failed. -/
def runResult (clientFor : ModelCfg → CallArgs → List OdooRecord) (fuel : Nat)
    (models : List (ModelCfg × String)) (ds : DurableState) :
    DurableState × Option String :=
  let out := runAllM clientFor fuel models ds
  (out.1,
   if out.2.isEmpty then none
   else some ("One or more model syncs failed: " ++ String.intercalate ", " out.2))

/-- `main().catch` in `cli.ts` (lines 92–97): a rejected run sets the process
exit code to 1. -/
def processExitCode (runError : Option String) : Nat :=
  if runError.isSome then 1 else 0

/-! ## Retry policy (`odoo-client.ts`) -/

/-- The parsed JSON-RPC response body as `sendRequest` inspects it: not JSON
at all, a body with a truthy `error` member, or a result. -/
inductive RpcBody where
  | malformed
  | rpcError (code : Int) (msg : String)
  | result (v : String)
deriving DecidableEq, Repr

/-- One HTTP attempt as observed by `sendRequest`: `fetch` threw (network
failure or the per-request `AbortSignal.timeout`), or a response with a
status code and body arrived. -/
inductive HttpAttempt where
  | networkFailure
  | response (status : Nat) (body : RpcBody)
deriving DecidableEq, Repr

/-- Outcome classification of one attempt. -/
inductive RpcOutcome where
  | ok (v : String)
  | retryable (e : String)
  | fatal (e : String)
deriving DecidableEq, Repr

/-- `sendRequest` (lines 128–176), as a classifier: thrown `fetch` →
retryable; status ≥ 500 → retryable; 401/403 → non-retryable; any other
non-2xx → non-retryable; unparseable body → retryable; structured JSON-RPC
error → non-retryable; otherwise the result. -/
def sendRequest (a : HttpAttempt) : RpcOutcome :=
  match a with
  | HttpAttempt.networkFailure =>
      RpcOutcome.retryable "Network error calling Odoo JSON-RPC endpoint."
  | HttpAttempt.response status body =>
      if 500 ≤ status then
        RpcOutcome.retryable s!"Odoo JSON-RPC endpoint returned {status}."
      else if status = 401 ∨ status = 403 then
        RpcOutcome.fatal s!"Authentication/authorization failed with HTTP {status}."
      else if ¬ (200 ≤ status ∧ status < 300) then
        RpcOutcome.fatal s!"Odoo JSON-RPC request failed with HTTP {status}."
      else
        match body with
        | RpcBody.malformed => RpcOutcome.retryable "Failed to parse JSON-RPC response payload."
        | RpcBody.rpcError c msg => RpcOutcome.fatal s!"Odoo JSON-RPC error {c}: {msg}"
        | RpcBody.result v => RpcOutcome.ok v

/-- The delay computed before retrying attempt `attempt` (lines 110–112):
`backoff_base_ms * 2^(attempt-1)` plus the jitter
`Math.floor(Math.random() * backoff_base_ms)`. -/
def retryDelay (backoffBaseMs attempt jitter : Nat) : Nat :=
  backoffBaseMs * 2 ^ (attempt - 1) + jitter

/-- The `for` loop of `callRpc` (lines 101–123), by remaining attempts:
a success returns, a non-retryable error propagates at once, a retryable
error on the last attempt propagates, otherwise the next attempt runs.  Also
returns the ghost count of attempts made.  The fuel-0 case is the
post-loop `throw` on line 125, unreachable from `callRpc`. -/
def callRpcAux (outcome : Nat → RpcOutcome) (attempt : Nat) :
    Nat → Except String String × Nat
  | 0 => (Except.error "Request failed after retries.", 0)
  | remaining + 1 =>
      match outcome attempt with
      | RpcOutcome.ok v => (Except.ok v, 1)
      | RpcOutcome.fatal e => (Except.error e, 1)
      | RpcOutcome.retryable e =>
          if remaining = 0 then (Except.error e, 1)
          else
            let out := callRpcAux outcome (attempt + 1) remaining
            (out.1, out.2 + 1)

/-- `callRpc` (lines 98–126): `max_retries + 1` attempts starting at 1. -/
def callRpc (maxRetries : Nat) (outcome : Nat → RpcOutcome) :
    Except String String × Nat :=
  callRpcAux outcome 1 (maxRetries + 1)

/-! ## The remote dataset (modelled)

Modelled from the spec: the remote `search_read` endpoint (§4.1 fetch
contract) is not part of this repository.  `semClient` serves a finite
dataset of well-formed records, honouring the filters this connector
generates: records are filtered by the base predicate, the window lower
bound and the keyset continuation, ordered ascending by `(cursor_value, id)`
and truncated to the requested limit. -/

/-- A well-formed upstream record: an integer id and a cursor string. -/
structure WfRecord where
  id : Int
  cursor : String
deriving DecidableEq, Repr

/-- The cursor point of a well-formed record. -/
def wfKey (w : WfRecord) : CursorPoint := ⟨w.cursor, w.id⟩

/-- Serialize a well-formed record the way Odoo returns it: integer id and
the cursor field holding the cursor string. -/
def toRecord (cursorField : String) (w : WfRecord) : OdooRecord :=
  { id := JVal.jint w.id, fields := [(cursorField, JVal.jstr w.cursor)] }

/-- Window lower bound `cursor_field >= windowStart`, on the server. -/
def windowOkB (windowStart : Option String) (w : WfRecord) : Bool :=
  match windowStart with
  | none => true
  | some s => ! strLtb w.cursor s

/-- Keyset continuation `cursor > v OR (cursor = v AND id > i)`, on the
server. -/
def keysetOkB (pageCursor : Option CursorPoint) (w : WfRecord) : Bool :=
  match pageCursor with
  | none => true
  | some p => cpLtb p (wfKey w)

/-- The full server-side predicate for one generated domain. -/
def srvPred (baseP : WfRecord → Bool) (windowStart : Option String)
    (pageCursor : Option CursorPoint) (w : WfRecord) : Bool :=
  baseP w && windowOkB windowStart w && keysetOkB pageCursor w

/-- Non-strict server order `(cursor, id)` ascending. -/
def wfLeb (a b : WfRecord) : Bool := ! cpLtb (wfKey b) (wfKey a)

/-- Insert into a sorted list (used to model the server's `ORDER BY`). -/
def insSorted (le : WfRecord → WfRecord → Bool) (x : WfRecord) :
    List WfRecord → List WfRecord
  | [] => [x]
  | y :: ys => if le x y then x :: y :: ys else y :: insSorted le x ys

/-- Insertion sort (used to model the server's `ORDER BY`). -/
def wfSort (le : WfRecord → WfRecord → Bool) : List WfRecord → List WfRecord
  | [] => []
  | x :: xs => insSorted le x (wfSort le xs)

/-- Strip a known prefix (the configured base domain) off a generated domain. -/
def stripBase (base dom : List DomTerm) : Option (List DomTerm) :=
  if dom.take base.length = base then some (dom.drop base.length) else none

/-- Recognize the window/keyset suffix shapes `buildDomain` generates,
recovering the window start and page cursor they encode. -/
def domSpec (cursorField : String) :
    List DomTerm → Option (Option String × Option CursorPoint)
  | [] => some (none, none)
  | [DomTerm.cond f ">=" (JVal.jstr s)] =>
      if f = cursorField then some (some s, none) else none
  | [DomTerm.orOp, DomTerm.cond f1 ">" (JVal.jstr v1), DomTerm.andOp,
     DomTerm.cond f2 "=" (JVal.jstr v2), DomTerm.cond "id" ">" (JVal.jint i)] =>
      if f1 = cursorField ∧ f2 = cursorField ∧ v1 = v2 then
        some (none, some ⟨v1, i⟩)
      else none
  | [DomTerm.cond f ">=" (JVal.jstr s), DomTerm.orOp,
     DomTerm.cond f1 ">" (JVal.jstr v1), DomTerm.andOp,
     DomTerm.cond f2 "=" (JVal.jstr v2), DomTerm.cond "id" ">" (JVal.jint i)] =>
      if f = cursorField ∧ f1 = cursorField ∧ f2 = cursorField ∧ v1 = v2 then
        some (some s, some ⟨v1, i⟩)
      else none
  | _ => none

/-- Modelled from the spec: the remote `search_read` endpoint serving a
finite dataset, for the domains this connector generates.  `baseP` is the
(uninterpreted) meaning of the configured base domain `base`. -/
def semClient (cursorField : String) (base : List DomTerm) (baseP : WfRecord → Bool)
    (dataset : List WfRecord) (args : CallArgs) : List OdooRecord :=
  match stripBase base args.domain with
  | none => []
  | some rest =>
      match domSpec cursorField rest with
      | none => []
      | some (windowStart, pageCursor) =>
          ((wfSort wfLeb (dataset.filter (srvPred baseP windowStart pageCursor))).take
              args.limit).map (toRecord cursorField)

/-! ## The spec's worked scenario

Empty initial checkpoint, three records sharing one cursor timestamp with
ids 1, 2, 3, page size 2. -/

/-- The shared cursor timestamp `T` of the scenario. -/
def scenarioT : String := "2024-01-01 00:00:00"

/-- The scenario's model configuration: empty base domain, cursor field
`write_date`, page size 2. -/
def scenarioModelCfg : ModelCfg :=
  { name := "res.partner", fields := ["id", "write_date"], domain := [],
    cursor_field := "write_date", overlap_seconds := 120, page_size := 2 }

/-- The scenario's upstream dataset: ids 1, 2, 3, all at `T`. -/
def scenarioData : List WfRecord :=
  [⟨1, scenarioT⟩, ⟨2, scenarioT⟩, ⟨3, scenarioT⟩]

/-- The scenario's remote endpoint. -/
def scenarioClient : CallArgs → List OdooRecord :=
  semClient "write_date" [] (fun _ => true) scenarioData

/-- An empty durable store: no checkpoints, no raw records, no runs. -/
def emptyDs : DurableState := ⟨[], [], []⟩

/-- The scenario's full per-model run. -/
def scenarioRun : DurableState × Bool :=
  runModelM scenarioClient scenarioModelCfg "run-1" 10 emptyDs

/-- The scenario's page loop, observed with its ghost trace (the same loop
`scenarioRun` executes internally: the store starts with no checkpoint, so
the window start is `none`). -/
def scenarioLoop : PageLoopOut :=
  syncPages scenarioClient scenarioModelCfg "run-1" none 10 none
    (startRunDb emptyDs "res.partner" "run-1")

/-! ## Claims -/

/-- C1 (counterexample). The spec's scenario asserts that after the second
page (record 3) a third, empty page is fetched and the run finishes with
`pages_processed = 3`.  The code exits the loop as soon as a page is shorter
than the page size (`sync-runner.ts` line 239), so the scenario's run makes
exactly two fetches and commits two pages: `pages_processed` is 2, not 3. -/
theorem C1_scenario_counterexample :
    (alookup "run-1" scenarioRun.1.runs).map (fun r => r.pages_processed) ≠ some 3 ∧
    scenarioLoop.fetches ≠ 3 := by
  decide

/-- C1 (amended). Empty initial checkpoint, records 1, 2, 3 sharing cursor
timestamp `T`, page size 2: the first page holds records 1 and 2 (tie-break
by id) and commits checkpoint `(T, 2)`; the second page's continuation
predicate is `cursor > T OR (cursor = T AND id > 2)` and yields record 3,
committing `(T, 3)`; because that page is shorter than the page size the
loop ends without a third fetch, and the run finishes with status `success`,
`records_read = 3` and `pages_processed = 2`. -/
theorem C1_scenario_amended :
    scenarioClient (fetchArgs scenarioModelCfg none none)
      = [toRecord "write_date" ⟨1, scenarioT⟩, toRecord "write_date" ⟨2, scenarioT⟩] ∧
    buildDomain scenarioModelCfg none (some ⟨scenarioT, 2⟩)
      = [DomTerm.orOp, DomTerm.cond "write_date" ">" (JVal.jstr scenarioT),
         DomTerm.andOp, DomTerm.cond "write_date" "=" (JVal.jstr scenarioT),
         DomTerm.cond "id" ">" (JVal.jint 2)] ∧
    scenarioClient (fetchArgs scenarioModelCfg none (some ⟨scenarioT, 2⟩))
      = [toRecord "write_date" ⟨3, scenarioT⟩] ∧
    scenarioLoop.commits = [⟨scenarioT, 2⟩, ⟨scenarioT, 3⟩] ∧
    scenarioLoop.status = LoopStatus.done ∧
    scenarioLoop.fetches = 2 ∧
    scenarioRun.2 = true ∧
    (alookup "run-1" scenarioRun.1.runs).map runSummary
      = some ("res.partner", RunStatus.success, none) ∧
    (alookup "run-1" scenarioRun.1.runs).map
        (fun r => (r.records_read, r.records_upserted, r.pages_processed))
      = some (3, 3, 2) := by
  refine ⟨by decide, by decide, by decide, by decide, by decide, by decide,
    by decide, by decide, by decide⟩

/-- C2. Every page commit runs the batch upsert, the checkpoint advance to
the page's max cursor point, and the additive counter update, in that order
inside one transaction: when all steps succeed the committed state is
exactly their in-order composition, and if any step fails the transaction
rolls back, leaving the durable state exactly as it was. -/
theorem C2_page_commit_atomic (m : ModelCfg) (records : List OdooRecord)
    (runId : String) (maxCursor : CursorPoint) (ds : DurableState) :
    (∀ ds1 n ds2, upsertBatch ds m.name records runId = Except.ok (ds1, n) →
        updateStateDb ds1 m.name m.cursor_field maxCursor.value maxCursor.id
          = Except.ok ds2 →
        runTransaction ds (pageTransaction m records runId maxCursor)
          = (updateRunProgressDb ds2 runId records.length n 1, none)) ∧
    (∀ e, (runTransaction ds (pageTransaction m records runId maxCursor)).2 = some e →
        (runTransaction ds (pageTransaction m records runId maxCursor)).1 = ds) := by
  constructor
  · intro ds1 n ds2 h1 h2
    simp [runTransaction, pageTransaction, h1, h2]
  · intro e hsome
    unfold runTransaction pageTransaction at hsome ⊢
    cases hub : upsertBatch ds m.name records runId with
    | error e' => rfl
    | ok p =>
        obtain ⟨ds1, n⟩ := p
        rw [hub] at hsome
        dsimp only at hsome ⊢
        cases hus : updateStateDb ds1 m.name m.cursor_field maxCursor.value maxCursor.id with
        | error e' => rfl
        | ok ds2 =>
            rw [hus] at hsome
            simp at hsome

/-- Input batch for the C2 witness: the scenario's first page. -/
def c2PageW : List OdooRecord :=
  [toRecord "write_date" ⟨1, scenarioT⟩, toRecord "write_date" ⟨2, scenarioT⟩]

/-- Raw-record table after the C2 witness batch. -/
def c2RawW : List ((String × Int) × RawRow) :=
  [(("res.partner", 2),
    { write_date := some "2024-01-01 00:00:00+00", create_date := none,
      payload := toRecord "write_date" ⟨2, scenarioT⟩, run_id := "run-1" }),
   (("res.partner", 1),
    { write_date := some "2024-01-01 00:00:00+00", create_date := none,
      payload := toRecord "write_date" ⟨1, scenarioT⟩, run_id := "run-1" })]

/-- Durable state after the C2 witness upsert. -/
def c2Ds1W : DurableState := ⟨c2RawW, [], []⟩

/-- Durable state after the C2 witness checkpoint advance. -/
def c2Ds2W : DurableState :=
  ⟨c2RawW,
   [("res.partner",
     { cursor_field := "write_date", cursor_value := some 1704067200,
       cursor_id := some 2, last_success_run_id := none })],
   []⟩

/-- Witness for C2: the scenario's first page commits to the in-order
composition of the three steps, and a batch with an invalid record id rolls
back to the untouched store. -/
theorem C2_page_commit_atomic_witness :
    runTransaction emptyDs (pageTransaction scenarioModelCfg c2PageW "run-1" ⟨scenarioT, 2⟩)
      = (updateRunProgressDb c2Ds2W "run-1" 2 2 1, none) ∧
    (runTransaction emptyDs
        (pageTransaction scenarioModelCfg [⟨JVal.jother, []⟩] "run-1" ⟨scenarioT, 1⟩)).1
      = emptyDs := by
  constructor
  · have h := (C2_page_commit_atomic scenarioModelCfg c2PageW "run-1" ⟨scenarioT, 2⟩
      emptyDs).1 c2Ds1W 2 c2Ds2W (by decide) (by decide)
    simpa using h
  · exact (C2_page_commit_atomic scenarioModelCfg [⟨JVal.jother, []⟩] "run-1"
      ⟨scenarioT, 1⟩ emptyDs).2
      "Record in model res.partner is missing a valid integer id." (by decide)

/-- C4. Every fetch uses the filter produced by `buildDomain`: the base
filter, conjoined with the window lower bound when a window start is set,
and with the keyset continuation predicate when a page cursor is set; the
requested order is `"<cursor_field> asc, id asc"` and the requested limit is
the configured page size; an empty page ends the loop with `done`, leaving
the durable state untouched. -/
theorem C4_fetch_filter_order_limit (m : ModelCfg) (s : String) (p : CursorPoint)
    (client : CallArgs → List OdooRecord) (runId : String) (ws : Option String)
    (fuel : Nat) (pc : Option CursorPoint) (ds : DurableState)
    (hs : s ≠ "") (hempty : client (fetchArgs m ws pc) = []) :
    fetchArgs m none none
      = ⟨m.name, m.domain, m.fields, m.cursor_field ++ " asc, id asc", m.page_size⟩ ∧
    fetchArgs m (some s) none
      = ⟨m.name, m.domain ++ [DomTerm.cond m.cursor_field ">=" (JVal.jstr s)],
         m.fields, m.cursor_field ++ " asc, id asc", m.page_size⟩ ∧
    fetchArgs m none (some p)
      = ⟨m.name,
         m.domain ++
           [DomTerm.orOp, DomTerm.cond m.cursor_field ">" (JVal.jstr p.value),
            DomTerm.andOp, DomTerm.cond m.cursor_field "=" (JVal.jstr p.value),
            DomTerm.cond "id" ">" (JVal.jint p.id)],
         m.fields, m.cursor_field ++ " asc, id asc", m.page_size⟩ ∧
    fetchArgs m (some s) (some p)
      = ⟨m.name,
         m.domain ++
           [DomTerm.cond m.cursor_field ">=" (JVal.jstr s)] ++
           [DomTerm.orOp, DomTerm.cond m.cursor_field ">" (JVal.jstr p.value),
            DomTerm.andOp, DomTerm.cond m.cursor_field "=" (JVal.jstr p.value),
            DomTerm.cond "id" ">" (JVal.jint p.id)],
         m.fields, m.cursor_field ++ " asc, id asc", m.page_size⟩ ∧
    syncPages client m runId ws (fuel + 1) pc ds
      = ⟨LoopStatus.done, ds, [], 1⟩ := by
  refine ⟨by simp [fetchArgs, buildDomain], by simp [fetchArgs, buildDomain, hs],
    by simp [fetchArgs, buildDomain], by simp [fetchArgs, buildDomain, hs], ?_⟩
  simp [syncPages, hempty]

/-- Witness for C4: the empty-endpoint loop finishes at once with `done`. -/
theorem C4_fetch_filter_order_limit_witness :
    syncPages (fun _ => []) scenarioModelCfg "run-1" none 5 none emptyDs
      = ⟨LoopStatus.done, emptyDs, [], 1⟩ :=
  (C4_fetch_filter_order_limit scenarioModelCfg "x" ⟨scenarioT, 1⟩ (fun _ => [])
    "run-1" none 4 none emptyDs (by decide) rfl).2.2.2.2

/-- C5. For retry attempt `k` (1-indexed), the computed delay is
`base * 2^(k-1)` plus the jitter, and with jitter drawn from `[0, base)` it
lies in `[base * 2^(k-1), base * 2^(k-1) + base)`. -/
theorem C5_backoff_bounds (base attempt jitter : Nat)
    (_hk : 1 ≤ attempt) (hj : jitter < base) :
    base * 2 ^ (attempt - 1) ≤ retryDelay base attempt jitter ∧
    retryDelay base attempt jitter < base * 2 ^ (attempt - 1) + base := by
  unfold retryDelay
  exact ⟨Nat.le_add_right _ _, Nat.add_lt_add_left hj _⟩

/-- Witness for C5: attempt 3 with base 500 and jitter 137. -/
theorem C5_backoff_bounds_witness :
    (1 ≤ 3 ∧ 137 < 500) ∧
    500 * 2 ^ 2 ≤ retryDelay 500 3 137 ∧ retryDelay 500 3 137 < 500 * 2 ^ 2 + 500 :=
  ⟨by decide, C5_backoff_bounds 500 3 137 (by decide) (by decide)⟩

/-- C10. `upsertBatch` with an empty batch returns 0 and leaves the store
completely unchanged, and every successful call returns exactly the number
of records in the input batch. -/
theorem C10_upsertBatch_count (ds : DurableState) (model runId : String)
    (records : List OdooRecord) :
    upsertBatch ds model [] runId = Except.ok (ds, 0) ∧
    (∀ ds' n, upsertBatch ds model records runId = Except.ok (ds', n) →
        n = records.length) := by
  constructor
  · simp [upsertBatch]
  · intro ds' n h
    unfold upsertBatch at h
    by_cases hlen : records.length = 0
    · rw [if_pos hlen] at h
      injection h with h'
      have hn : (0 : Nat) = n := congrArg Prod.snd h'
      omega
    · rw [if_neg hlen] at h
      cases hm : records.mapM (buildRow model runId) with
      | error e => rw [hm] at h; simp at h
      | ok rows =>
          rw [hm] at h
          dsimp only at h
          by_cases hdup : hasDupKey (rows.map Prod.fst) = true
          · rw [if_pos hdup] at h; simp at h
          · rw [if_neg hdup] at h
            injection h with h'
            exact (congrArg Prod.snd h').symm

/-- Witness for C10: the empty batch leaves the empty store untouched, and
the scenario's two-record batch reports exactly 2 upserted. -/
theorem C10_upsertBatch_count_witness :
    upsertBatch emptyDs "res.partner" c2PageW "run-1" = Except.ok (c2Ds1W, 2) ∧
    (2 : Nat) = c2PageW.length :=
  ⟨by decide,
   (C10_upsertBatch_count emptyDs "res.partner" "run-1" c2PageW).2 c2Ds1W 2 (by decide)⟩

/-- Exhausting the retry budget: if every attempt in range fails retryably,
the loop runs all attempts and surfaces the last attempt's error. -/
theorem callRpcAux_exhaust (outcome : Nat → RpcOutcome) (es : Nat → String) :
    ∀ (remaining attempt : Nat), 1 ≤ remaining →
      (∀ i, attempt ≤ i → i < attempt + remaining → outcome i = RpcOutcome.retryable (es i)) →
      callRpcAux outcome attempt remaining
        = (Except.error (es (attempt + remaining - 1)), remaining) := by
  intro remaining
  induction remaining with
  | zero => intro attempt h; omega
  | succ rem ih =>
      intro attempt _ hall
      have hthis : outcome attempt = RpcOutcome.retryable (es attempt) :=
        hall attempt (le_refl _) (by omega)
      by_cases hrem : rem = 0
      · subst hrem
        simp [callRpcAux, hthis]
      · have hrec := ih (attempt + 1) (by omega)
          (fun i h1 h2 => hall i (by omega) (by omega))
        simp only [callRpcAux, hthis, if_neg hrem, hrec]
        have harith : attempt + 1 + rem - 1 = attempt + (rem + 1) - 1 := by omega
        rw [harith]

/-- C6. Failure classification and the retry loop: network failures (which
include per-request timeouts), 5xx responses and unparseable bodies are
retryable; 401/403, other non-2xx statuses and structured JSON-RPC errors
are not.  A run of all-retryable attempts uses the whole attempt budget
(`max_retries + 1`) and surfaces the last error; a non-retryable failure on
the first attempt propagates immediately after exactly one attempt. -/
theorem C6_retry_classification (maxRetries : Nat) (outcome : Nat → RpcOutcome)
    (es : Nat → String) :
    sendRequest HttpAttempt.networkFailure
      = RpcOutcome.retryable "Network error calling Odoo JSON-RPC endpoint." ∧
    (∀ st body, 500 ≤ st →
        sendRequest (HttpAttempt.response st body)
          = RpcOutcome.retryable s!"Odoo JSON-RPC endpoint returned {st}.") ∧
    (∀ st body, st = 401 ∨ st = 403 →
        sendRequest (HttpAttempt.response st body)
          = RpcOutcome.fatal s!"Authentication/authorization failed with HTTP {st}.") ∧
    (∀ st body, 300 ≤ st → st < 500 → st ≠ 401 → st ≠ 403 →
        sendRequest (HttpAttempt.response st body)
          = RpcOutcome.fatal s!"Odoo JSON-RPC request failed with HTTP {st}.") ∧
    (∀ st, 200 ≤ st → st < 300 →
        sendRequest (HttpAttempt.response st RpcBody.malformed)
          = RpcOutcome.retryable "Failed to parse JSON-RPC response payload.") ∧
    (∀ st c msg, 200 ≤ st → st < 300 →
        sendRequest (HttpAttempt.response st (RpcBody.rpcError c msg))
          = RpcOutcome.fatal s!"Odoo JSON-RPC error {c}: {msg}") ∧
    ((∀ i, 1 ≤ i → i ≤ maxRetries + 1 → outcome i = RpcOutcome.retryable (es i)) →
        callRpc maxRetries outcome = (Except.error (es (maxRetries + 1)), maxRetries + 1)) ∧
    (∀ e, outcome 1 = RpcOutcome.fatal e →
        callRpc maxRetries outcome = (Except.error e, 1)) := by
  refine ⟨rfl, ?_, ?_, ?_, ?_, ?_, ?_, ?_⟩
  · intro st body h
    unfold sendRequest
    dsimp only
    rw [if_pos h]
  · intro st body h
    rcases h with h | h <;> subst h <;> rfl
  · intro st body h1 h2 h3 h4
    have hn5 : ¬ 500 ≤ st := by omega
    have hn4 : ¬ (st = 401 ∨ st = 403) := by omega
    have hn2 : ¬ (200 ≤ st ∧ st < 300) := by omega
    unfold sendRequest
    dsimp only
    rw [if_neg hn5, if_neg hn4, if_pos hn2]
  · intro st h1 h2
    have hn5 : ¬ 500 ≤ st := by omega
    have hn4 : ¬ (st = 401 ∨ st = 403) := by omega
    have h2xx : 200 ≤ st ∧ st < 300 := ⟨h1, h2⟩
    unfold sendRequest
    dsimp only
    rw [if_neg hn5, if_neg hn4, if_neg (not_not_intro h2xx)]
  · intro st c msg h1 h2
    have hn5 : ¬ 500 ≤ st := by omega
    have hn4 : ¬ (st = 401 ∨ st = 403) := by omega
    have h2xx : 200 ≤ st ∧ st < 300 := ⟨h1, h2⟩
    unfold sendRequest
    dsimp only
    rw [if_neg hn5, if_neg hn4, if_neg (not_not_intro h2xx)]
  · intro hall
    unfold callRpc
    have h := callRpcAux_exhaust outcome es (maxRetries + 1) 1 (by omega)
      (fun i h1 h2 => hall i h1 (by omega))
    have harith : 1 + (maxRetries + 1) - 1 = maxRetries + 1 := by omega
    rw [harith] at h
    exact h
  · intro e h
    unfold callRpc
    simp [callRpcAux, h]

/-- Witness for C6: a budget of 2 retries, all attempts failing retryably,
surfaces the third attempt's error after 3 attempts; a fatal first attempt
surfaces at once. -/
theorem C6_retry_classification_witness :
    callRpc 2 (fun i => RpcOutcome.retryable (toString i))
      = (Except.error (toString 3), 3) ∧
    callRpc 2 (fun _ => RpcOutcome.fatal "auth") = (Except.error "auth", 1) :=
  ⟨(C6_retry_classification 2 (fun i => RpcOutcome.retryable (toString i)) toString).2.2.2.2.2.2.1
      (fun _ _ _ => rfl),
   (C6_retry_classification 2 (fun _ => RpcOutcome.fatal "auth") toString).2.2.2.2.2.2.2
      "auth" rfl⟩

/-- C7. With no checkpoint no lower bound is applied; with a checkpoint
whose stored cursor value parses, the window start is the cursor value minus
the configured overlap (in seconds), and the window clause
`cursor_field >= window_start` is in the filter of every page of the run
(whatever the page cursor). -/
theorem C7_window_start (m : ModelCfg) (s : String) (t : Int)
    (pc : Option CursorPoint) (hs : s ≠ "") (hparse : parseIsoUtc s = some t) :
    computeWindowStart m none = Except.ok none ∧
    computeWindowStart m (some s)
      = Except.ok (some (toOdooTimestampUtc (t - (m.overlap_seconds : Int)))) ∧
    (∀ ws : String, ws ≠ "" →
        DomTerm.cond m.cursor_field ">=" (JVal.jstr ws) ∈ buildDomain m (some ws) pc) := by
  refine ⟨rfl, ?_, ?_⟩
  · simp [computeWindowStart, hs, hparse]
  · intro ws hws
    unfold buildDomain
    dsimp only
    rw [if_neg hws]
    refine List.mem_append.mpr (Or.inl ?_)
    exact List.mem_append.mpr (Or.inr (List.mem_singleton.mpr rfl))

/-- Witness for C7: a checkpoint at 2024-05-01T12:00:00Z with a 120-second
overlap yields the window start 2024-05-01 11:58:00, and the window clause
appears in the second page's filter. -/
theorem C7_window_start_witness :
    computeWindowStart scenarioModelCfg (some "2024-05-01T12:00:00.000Z")
      = Except.ok (some "2024-05-01 11:58:00") ∧
    DomTerm.cond "write_date" ">=" (JVal.jstr "2024-05-01 11:58:00")
      ∈ buildDomain scenarioModelCfg (some "2024-05-01 11:58:00") (some ⟨scenarioT, 2⟩) := by
  have h := C7_window_start scenarioModelCfg "2024-05-01T12:00:00.000Z" 1714564800
    (some ⟨scenarioT, 2⟩) (by decide) (by decide)
  constructor
  · rw [h.2.1]
    decide
  · exact h.2.2 "2024-05-01 11:58:00" (by decide)

/-- C3. Within one entity run, the committed cursor points form a strictly
increasing chain under the lexicographic `(cursor_value, id)` order (hence
the committed checkpoint is non-decreasing, and strictly increases on every
committed non-empty page), provided the endpoint honours the keyset
continuation predicate: every record returned for a page cursor `p` parses
to a cursor point strictly above `p`. -/
theorem C3_checkpoint_monotonic (client : CallArgs → List OdooRecord) (m : ModelCfg)
    (runId : String) (ws : Option String) (fuel : Nat) (pc : Option CursorPoint)
    (ds : DurableState)
    (H : ∀ p r, r ∈ client (fetchArgs m ws (some p)) →
        ∀ q, recordPoint r m.name m.cursor_field = Except.ok q → cpLtP p q) :
    List.Chain' cpLtP (pc.toList ++ (syncPages client m runId ws fuel pc ds).commits) := by
  induction fuel generalizing pc ds with
  | zero =>
      cases pc <;> simp [syncPages]
  | succ fuel ih =>
      simp only [syncPages]
      by_cases h0 : (client (fetchArgs m ws pc)).length = 0
      · rw [if_pos h0]
        cases pc <;> simp
      · rw [if_neg h0]
        cases hmax : maxCursorPoint (client (fetchArgs m ws pc)) m.name m.cursor_field with
        | error e =>
            cases pc <;> simp
        | ok maxC =>
            dsimp only
            rcases hrt : runTransaction ds
                (pageTransaction m (client (fetchArgs m ws pc)) runId maxC) with ⟨dsr, err⟩
            cases err with
            | some e =>
                cases pc <;> simp
            | none =>
                dsimp only
                by_cases hshort : (client (fetchArgs m ws pc)).length < m.page_size
                · rw [if_pos hshort]
                  cases hpc : pc with
                  | none => simp
                  | some p =>
                      subst hpc
                      obtain ⟨r, hr, hok⟩ := maxCursorPoint_attained hmax
                      have hlt : cpLtP p maxC := H p r hr maxC hok
                      simp only [Option.toList_some, List.singleton_append]
                      exact List.chain'_pair.mpr hlt
                · rw [if_neg hshort]
                  have hrec := ih (some maxC) dsr
                  simp only [Option.toList_some, List.singleton_append] at hrec
                  cases hpc : pc with
                  | none => simpa using hrec
                  | some p =>
                      subst hpc
                      obtain ⟨r, hr, hok⟩ := maxCursorPoint_attained hmax
                      have hlt : cpLtP p maxC := H p r hr maxC hok
                      simp only [Option.toList_some, List.singleton_append]
                      exact List.chain'_cons.mpr ⟨hlt, hrec⟩

/-! ## Termination of the page loop -/

theorem insSorted_perm (le : WfRecord → WfRecord → Bool) (x : WfRecord) :
    ∀ l : List WfRecord, (insSorted le x l).Perm (x :: l) := by
  intro l
  induction l with
  | nil => simp [insSorted]
  | cons y ys ih =>
      by_cases h : le x y = true
      · simp [insSorted, h]
      · simp only [insSorted, if_neg h]
        exact (List.Perm.cons y ih).trans (List.Perm.swap x y ys)

theorem wfSort_perm (le : WfRecord → WfRecord → Bool) :
    ∀ l : List WfRecord, (wfSort le l).Perm l := by
  intro l
  induction l with
  | nil => simp [wfSort]
  | cons x xs ih => exact (insSorted_perm le x (wfSort le xs)).trans (ih.cons x)

theorem stripBase_append (base rest : List DomTerm) :
    stripBase base (base ++ rest) = some rest := by
  unfold stripBase
  rw [if_pos (List.take_left base rest)]
  rw [List.drop_left]

/-- The window start a generated domain actually encodes: a JS-falsy (empty)
window start produces no clause. -/
def effWindow : Option String → Option String
  | none => none
  | some s => if s = "" then none else some s

theorem semClient_fetchArgs (baseP : WfRecord → Bool) (dataset : List WfRecord)
    (m : ModelCfg) (ws : Option String) (pc : Option CursorPoint) :
    semClient m.cursor_field m.domain baseP dataset (fetchArgs m ws pc)
      = ((wfSort wfLeb (dataset.filter (srvPred baseP (effWindow ws) pc))).take
          m.page_size).map (toRecord m.cursor_field) := by
  unfold semClient fetchArgs buildDomain
  dsimp only
  rw [List.append_assoc, stripBase_append]
  cases ws with
  | none =>
      cases pc with
      | none => simp [domSpec, effWindow]
      | some p => simp [domSpec, effWindow]
  | some s =>
      by_cases hs : s = ""
      · subst hs
        cases pc with
        | none => simp [domSpec, effWindow]
        | some p => simp [domSpec, effWindow]
      · cases pc with
        | none => simp [domSpec, effWindow, hs]
        | some p => simp [domSpec, effWindow, hs]

theorem recordPoint_toRecord (cf mn : String) (w : WfRecord) (q : CursorPoint) :
    recordPoint (toRecord cf w) mn cf = Except.ok q → q = wfKey w := by
  intro h
  unfold recordPoint parseRecordId getRecordCursor getField toRecord at h
  dsimp only at h
  by_cases hcf : cf = "id"
  · rw [if_pos hcf] at h
    simp at h
  · rw [if_neg hcf] at h
    by_cases hb : isBlank w.cursor = true <;> simp [alookup, hb] at h
    exact h.symm

theorem maxCursorPoint_all_parse {records : List OdooRecord} {mn cf : String}
    {c : CursorPoint} (h : maxCursorPoint records mn cf = Except.ok c) :
    ∀ r ∈ records, ∃ q, recordPoint r mn cf = Except.ok q :=
  maxCursorGo_all_parse mn cf records none c h

theorem maxCursorPoint_ub {records : List OdooRecord} {mn cf : String}
    {c : CursorPoint} (h : maxCursorPoint records mn cf = Except.ok c) :
    ∀ r ∈ records, ∀ q, recordPoint r mn cf = Except.ok q → ¬ cpLtP c q :=
  (maxCursorGo_ub mn cf records none c h).2

/-- The modelled endpoint honours the keyset continuation contract: every
record it returns for a page cursor `p` parses to a cursor point strictly
above `p`, because the filter it applies is exactly the continuation
predicate. -/
theorem semClient_keyset (baseP : WfRecord → Bool) (dataset : List WfRecord)
    (m : ModelCfg) (ws : Option String) (p : CursorPoint) (r : OdooRecord)
    (hr : r ∈ semClient m.cursor_field m.domain baseP dataset (fetchArgs m ws (some p)))
    (q : CursorPoint) (hq : recordPoint r m.name m.cursor_field = Except.ok q) :
    cpLtP p q := by
  rw [semClient_fetchArgs] at hr
  obtain ⟨w, hw, hwr⟩ := List.mem_map.mp hr
  have hwL : w ∈ dataset.filter (srvPred baseP (effWindow ws) (some p)) :=
    (wfSort_perm wfLeb _).mem_iff.mp (List.mem_of_mem_take hw)
  have hpred := List.of_mem_filter hwL
  simp only [srvPred, Bool.and_eq_true, keysetOkB] at hpred
  have hkey : cpLtP p (wfKey w) := (cpLtb_iff _ _).mp hpred.2
  rw [← hwr] at hq
  rw [recordPoint_toRecord m.cursor_field m.name w q hq]
  exact hkey

/-- Witness for C3: the spec scenario's endpoint serves real pages and
satisfies the keyset contract non-vacuously (via `semClient_keyset`), and
the two committed checkpoints `(T, 2)`, `(T, 3)` form a strict chain. -/
theorem C3_checkpoint_monotonic_witness :
    scenarioLoop.commits
      = [⟨scenarioT, 2⟩, ⟨scenarioT, 3⟩] ∧
    List.Chain' cpLtP ((none : Option CursorPoint).toList ++ scenarioLoop.commits) :=
  ⟨by decide,
   C3_checkpoint_monotonic scenarioClient scenarioModelCfg "run-1" none 10 none
     (startRunDb emptyDs "res.partner" "run-1")
     (fun p r hr q hq =>
       semClient_keyset (fun _ => true) scenarioData scenarioModelCfg none p r hr q hq)⟩

/-- Committing a full page strictly shrinks the set of records still
matching the continuation filter: the page's records match the old filter
but not the one over the page's max cursor point. -/
theorem remaining_decrease (baseP : WfRecord → Bool) (ws : Option String)
    (dataset : List WfRecord) (ps : Nat) (pc : Option CursorPoint) (maxC : CursorPoint)
    (hps : 1 ≤ ps)
    (hfull : ¬ ((wfSort wfLeb (dataset.filter (srvPred baseP ws pc))).take ps).length < ps)
    (hmem : ∃ w ∈ (wfSort wfLeb (dataset.filter (srvPred baseP ws pc))).take ps,
        wfKey w = maxC)
    (hub : ∀ w ∈ (wfSort wfLeb (dataset.filter (srvPred baseP ws pc))).take ps,
        ¬ cpLtP maxC (wfKey w)) :
    dataset.countP (srvPred baseP ws (some maxC)) < dataset.countP (srvPred baseP ws pc) := by
  set pred := srvPred baseP ws pc with hpred
  set L := dataset.filter pred with hL
  set S := wfSort wfLeb L with hS
  have hperm : S.Perm L := wfSort_perm wfLeb L
  have hSlen : S.length = L.length := hperm.length_eq
  have hpagelen : (S.take ps).length = min ps S.length := List.length_take ps S
  have hpsS : ps ≤ S.length := by
    have h1 : ps ≤ (S.take ps).length := Nat.le_of_not_lt hfull
    rw [hpagelen] at h1
    exact le_trans h1 (Nat.min_le_right ps S.length)
  -- every record matching the new filter matches the old one
  have himp : ∀ w : WfRecord, srvPred baseP ws (some maxC) w = true → pred w = true := by
    intro w hw
    obtain ⟨w0, hw0mem, hw0key⟩ := hmem
    have hw0L : w0 ∈ L := hperm.mem_iff.mp (List.mem_of_mem_take hw0mem)
    have hw0pred : pred w0 = true := List.of_mem_filter hw0L
    rw [hpred] at hw0pred ⊢
    simp only [srvPred, Bool.and_eq_true] at hw hw0pred ⊢
    refine ⟨hw.1, ?_⟩
    have hmaxw : cpLtP maxC (wfKey w) := by
      have h3 := hw.2
      simp only [keysetOkB] at h3
      exact (cpLtb_iff _ _).mp h3
    cases pc with
    | none => rfl
    | some p =>
        simp only [keysetOkB] at hw0pred ⊢
        have hpmax : cpLtP p maxC := by
          have h2 := hw0pred.2
          rw [hw0key] at h2
          exact (cpLtb_iff p maxC).mp h2
        exact (cpLtb_iff _ _).mpr (cpLtP_trans hpmax hmaxw)
  -- count the new filter inside the old page decomposition
  have hc1 : dataset.countP (srvPred baseP ws (some maxC))
      = L.countP (srvPred baseP ws (some maxC)) := by
    rw [hL, hpred, List.countP_filter]
    refine List.countP_congr ?_
    intro w _
    constructor
    · intro hw
      simp only [Bool.and_eq_true]
      refine ⟨hw, ?_⟩
      have := himp w hw
      rw [hpred] at this
      exact this
    · intro hw
      simp only [Bool.and_eq_true] at hw
      exact hw.1
  have hc2 : L.countP (srvPred baseP ws (some maxC))
      = S.countP (srvPred baseP ws (some maxC)) :=
    (hperm.countP_eq _).symm
  have hc3 : S.countP (srvPred baseP ws (some maxC))
      = (S.take ps).countP (srvPred baseP ws (some maxC))
        + (S.drop ps).countP (srvPred baseP ws (some maxC)) := by
    conv_lhs => rw [← List.take_append_drop ps S]
    exact List.countP_append _ _ _
  have hc4 : (S.take ps).countP (srvPred baseP ws (some maxC)) = 0 := by
    refine List.countP_eq_zero.mpr ?_
    intro w hw hwp
    simp only [srvPred, Bool.and_eq_true, keysetOkB] at hwp
    exact hub w hw ((cpLtb_iff _ _).mp hwp.2)
  have hc5 : (S.drop ps).countP (srvPred baseP ws (some maxC)) ≤ S.length - ps := by
    have hle := @List.countP_le_length WfRecord (srvPred baseP ws (some maxC)) (S.drop ps)
    rw [List.length_drop] at hle
    exact hle
  have hcL : dataset.countP pred = L.length := by
    rw [hL, hpred, List.countP_eq_length_filter]
  omega

/-- C9. For every finite upstream dataset (served by the modelled endpoint
over any base predicate), the page loop terminates: with fuel exceeding the
dataset size the loop never runs out of fuel, because each committed full
page strictly shrinks the set of records still matching the continuation
filter, and an empty or short page exits the loop. -/
theorem C9_loop_terminates (baseP : WfRecord → Bool) (dataset : List WfRecord)
    (m : ModelCfg) (runId : String) (ws : Option String) (ds : DurableState)
    (fuel : Nat) (hps : 1 ≤ m.page_size) (hfuel : dataset.length < fuel) :
    (syncPages (semClient m.cursor_field m.domain baseP dataset) m runId ws
        fuel none ds).status ≠ LoopStatus.fuelOut := by
  have main : ∀ (fuel : Nat) (pc : Option CursorPoint) (ds : DurableState),
      dataset.countP (srvPred baseP (effWindow ws) pc) < fuel →
      (syncPages (semClient m.cursor_field m.domain baseP dataset) m runId ws
          fuel pc ds).status ≠ LoopStatus.fuelOut := by
    intro fuel
    induction fuel with
    | zero => intro pc ds h; omega
    | succ fuel ih =>
        intro pc ds hcount
        simp only [syncPages]
        rw [semClient_fetchArgs baseP dataset m ws pc]
        by_cases h0 : (((wfSort wfLeb (dataset.filter
            (srvPred baseP (effWindow ws) pc))).take m.page_size).map
            (toRecord m.cursor_field)).length = 0
        · rw [if_pos h0]
          simp
        · rw [if_neg h0]
          cases hmax : maxCursorPoint (((wfSort wfLeb (dataset.filter
              (srvPred baseP (effWindow ws) pc))).take m.page_size).map
              (toRecord m.cursor_field)) m.name m.cursor_field with
          | error e => simp
          | ok maxC =>
              dsimp only
              rcases hrt : runTransaction ds
                  (pageTransaction m (((wfSort wfLeb (dataset.filter
                    (srvPred baseP (effWindow ws) pc))).take m.page_size).map
                    (toRecord m.cursor_field)) runId maxC) with ⟨dsr, err⟩
              cases err with
              | some e => simp
              | none =>
                  dsimp only
                  by_cases hshort : (((wfSort wfLeb (dataset.filter
                      (srvPred baseP (effWindow ws) pc))).take m.page_size).map
                      (toRecord m.cursor_field)).length < m.page_size
                  · rw [if_pos hshort]
                    simp
                  · rw [if_neg hshort]
                    dsimp only
                    refine ih (some maxC) dsr ?_
                    -- the full page strictly shrinks the remaining set
                    have hlenmap : (((wfSort wfLeb (dataset.filter
                        (srvPred baseP (effWindow ws) pc))).take m.page_size).map
                        (toRecord m.cursor_field)).length
                        = ((wfSort wfLeb (dataset.filter
                            (srvPred baseP (effWindow ws) pc))).take m.page_size).length :=
                      List.length_map _ _
                    have hfull : ¬ ((wfSort wfLeb (dataset.filter
                        (srvPred baseP (effWindow ws) pc))).take m.page_size).length
                        < m.page_size := by
                      rw [← hlenmap]; exact hshort
                    have hmem : ∃ w ∈ (wfSort wfLeb (dataset.filter
                        (srvPred baseP (effWindow ws) pc))).take m.page_size,
                        wfKey w = maxC := by
                      obtain ⟨r, hr, hok⟩ := maxCursorPoint_attained hmax
                      obtain ⟨w, hw, hwr⟩ := List.mem_map.mp hr
                      refine ⟨w, hw, ?_⟩
                      rw [← hwr] at hok
                      exact (recordPoint_toRecord m.cursor_field m.name w maxC hok).symm
                    have hub : ∀ w ∈ (wfSort wfLeb (dataset.filter
                        (srvPred baseP (effWindow ws) pc))).take m.page_size,
                        ¬ cpLtP maxC (wfKey w) := by
                      intro w hw
                      have hrmem : toRecord m.cursor_field w ∈ ((wfSort wfLeb (dataset.filter
                          (srvPred baseP (effWindow ws) pc))).take m.page_size).map
                          (toRecord m.cursor_field) := List.mem_map_of_mem _ hw
                      obtain ⟨q, hq⟩ := maxCursorPoint_all_parse hmax _ hrmem
                      have hqkey : q = wfKey w :=
                        recordPoint_toRecord m.cursor_field m.name w q hq
                      have := maxCursorPoint_ub hmax _ hrmem q hq
                      rw [hqkey] at this
                      exact this
                    have hdec := remaining_decrease baseP (effWindow ws) dataset
                      m.page_size pc maxC hps hfull hmem hub
                    omega
  refine main fuel none ds ?_
  exact lt_of_le_of_lt (@List.countP_le_length WfRecord
    (srvPred baseP (effWindow ws) none) dataset) hfuel

/-- Witness for C9: the scenario's three-record dataset with page size 2 and
fuel 4 finishes without running out of fuel. -/
theorem C9_loop_terminates_witness :
    (syncPages (semClient "write_date" [] (fun _ => true) scenarioData)
        scenarioModelCfg "run-1" none 4 none emptyDs).status ≠ LoopStatus.fuelOut :=
  C9_loop_terminates (fun _ => true) scenarioData scenarioModelCfg "run-1" none
    emptyDs 4 (by decide) (by decide)

/-! ## Failure isolation across entities -/

theorem alookup_aupdate_self {β : Type} (k : String) (f : β → β) :
    ∀ l : List (String × β), alookup k (aupdate k f l) = (alookup k l).map f := by
  intro l
  induction l with
  | nil => rfl
  | cons p rest ih =>
      obtain ⟨k1, v⟩ := p
      unfold aupdate
      rw [List.map_cons]
      dsimp only
      by_cases hp : k1 = k
      · rw [if_pos hp]
        unfold alookup
        rw [if_pos hp, if_pos hp]
        rfl
      · rw [if_neg hp]
        unfold alookup
        rw [if_neg hp, if_neg hp]
        unfold aupdate at ih
        exact ih

theorem alookup_aupdate_ne {β : Type} (k k' : String) (f : β → β) (h : k' ≠ k) :
    ∀ l : List (String × β), alookup k' (aupdate k f l) = alookup k' l := by
  intro l
  induction l with
  | nil => rfl
  | cons p rest ih =>
      obtain ⟨k1, v⟩ := p
      unfold aupdate
      rw [List.map_cons]
      dsimp only
      by_cases hp : k1 = k
      · rw [if_pos hp]
        have hp' : ¬ k1 = k' := by rw [hp]; exact fun hc => h hc.symm
        unfold alookup
        rw [if_neg hp', if_neg hp']
        unfold aupdate at ih
        exact ih
      · rw [if_neg hp]
        by_cases hq : k1 = k'
        · unfold alookup
          rw [if_pos hq, if_pos hq]
        · unfold alookup
          rw [if_neg hq, if_neg hq]
          unfold aupdate at ih
          exact ih

theorem summary_aupdate (rid : String) (f : RunRow → RunRow)
    (hf : ∀ r, runSummary (f r) = runSummary r) (k : String)
    (l : List (String × RunRow)) :
    (alookup k (aupdate rid f l)).map runSummary = (alookup k l).map runSummary := by
  by_cases hk : k = rid
  · subst hk
    rw [alookup_aupdate_self]
    cases alookup k l <;> simp [hf]
  · rw [alookup_aupdate_ne rid k f hk]

theorem upsertBatch_runs {ds : DurableState} {model : String}
    {records : List OdooRecord} {runId : String} {ds' : DurableState} {n : Nat} :
    upsertBatch ds model records runId = Except.ok (ds', n) → ds'.runs = ds.runs := by
  intro h
  unfold upsertBatch at h
  by_cases hlen : records.length = 0
  · rw [if_pos hlen] at h
    injection h with h'
    have hd : ds = ds' := congrArg Prod.fst h'
    rw [← hd]
  · rw [if_neg hlen] at h
    cases hm : records.mapM (buildRow model runId) with
    | error e => rw [hm] at h; simp at h
    | ok rows =>
        rw [hm] at h
        dsimp only at h
        by_cases hdup : hasDupKey (rows.map Prod.fst) = true
        · rw [if_pos hdup] at h; simp at h
        · rw [if_neg hdup] at h
          injection h with h'
          have hr : ds.runs = ds'.runs := congrArg (fun p => p.1.runs) h'
          exact hr.symm

theorem updateStateDb_runs {ds : DurableState} {model cf cv : String} {ci : Int}
    {ds' : DurableState} :
    updateStateDb ds model cf cv ci = Except.ok ds' → ds'.runs = ds.runs := by
  intro h
  unfold updateStateDb at h
  cases hp : parseOdooTs cv with
  | none => rw [hp] at h; simp at h
  | some t =>
      rw [hp] at h
      injection h with h'
      rw [← h']

theorem pageTransaction_summary {m : ModelCfg} {records : List OdooRecord}
    {runId : String} {maxC : CursorPoint} {ds ds' : DurableState} :
    pageTransaction m records runId maxC ds = Except.ok ds' →
    ∀ k, (alookup k ds'.runs).map runSummary = (alookup k ds.runs).map runSummary := by
  intro h k
  unfold pageTransaction at h
  cases hub : upsertBatch ds m.name records runId with
  | error e => rw [hub] at h; simp at h
  | ok p =>
      obtain ⟨ds1, n⟩ := p
      rw [hub] at h
      dsimp only at h
      cases hus : updateStateDb ds1 m.name m.cursor_field maxC.value maxC.id with
      | error e => rw [hus] at h; simp at h
      | ok ds2 =>
          rw [hus] at h
          injection h with h'
          rw [← h']
          have h1 : ds1.runs = ds.runs := upsertBatch_runs hub
          have h2 : ds2.runs = ds1.runs := updateStateDb_runs hus
          unfold updateRunProgressDb
          dsimp only
          rw [summary_aupdate runId
            (fun r => { r with
              records_read := r.records_read + records.length,
              records_upserted := r.records_upserted + n,
              pages_processed := r.pages_processed + 1 }) (fun r => rfl) k]
          rw [h2, h1]

theorem runTransaction_some {ds : DurableState}
    {tx : DurableState → Except String DurableState} {dsr : DurableState} {e : String} :
    runTransaction ds tx = (dsr, some e) → dsr = ds := by
  intro h
  unfold runTransaction at h
  cases htx : tx ds with
  | ok d => rw [htx] at h; simp at h
  | error e' =>
      rw [htx] at h
      injection h with h1 h2
      exact h1.symm

theorem runTransaction_none {ds : DurableState}
    {tx : DurableState → Except String DurableState} {dsr : DurableState} :
    runTransaction ds tx = (dsr, none) → tx ds = Except.ok dsr := by
  intro h
  unfold runTransaction at h
  cases htx : tx ds with
  | ok d =>
      rw [htx] at h
      injection h with h1 h2
      rw [h1]
  | error e' => rw [htx] at h; simp at h

theorem syncPages_summary (client : CallArgs → List OdooRecord) (m : ModelCfg)
    (runId : String) (ws : Option String) :
    ∀ (fuel : Nat) (pc : Option CursorPoint) (ds : DurableState) (k : String),
      (alookup k (syncPages client m runId ws fuel pc ds).ds.runs).map runSummary
        = (alookup k ds.runs).map runSummary := by
  intro fuel
  induction fuel with
  | zero => intro pc ds k; rfl
  | succ fuel ih =>
      intro pc ds k
      simp only [syncPages]
      by_cases h0 : (client (fetchArgs m ws pc)).length = 0
      · rw [if_pos h0]
      · rw [if_neg h0]
        cases hmax : maxCursorPoint (client (fetchArgs m ws pc)) m.name m.cursor_field with
        | error e => rfl
        | ok maxC =>
            dsimp only
            rcases hrt : runTransaction ds
                (pageTransaction m (client (fetchArgs m ws pc)) runId maxC) with ⟨dsr, err⟩
            cases err with
            | some e =>
                dsimp only
                rw [runTransaction_some hrt]
            | none =>
                dsimp only
                have htx := runTransaction_none hrt
                have hpres := pageTransaction_summary htx k
                by_cases hshort : (client (fetchArgs m ws pc)).length < m.page_size
                · rw [if_pos hshort]
                  exact hpres
                · rw [if_neg hshort]
                  dsimp only
                  rw [ih (some maxC) dsr k]
                  exact hpres

/-- State carried out of `syncModelM`, successful or not. -/
def syncModelDs : Except (String × DurableState) DurableState → DurableState
  | Except.ok d => d
  | Except.error p => p.2

theorem syncModelM_summary (client : CallArgs → List OdooRecord) (m : ModelCfg)
    (runId : String) (fuel : Nat) (ds : DurableState) (k : String) :
    (alookup k (syncModelDs (syncModelM client m runId fuel ds)).runs).map runSummary
      = (alookup k ds.runs).map runSummary := by
  unfold syncModelM
  dsimp only
  cases hw : computeWindowStart m
      ((getStateDb ds m.name).bind fun r => r.cursor_value.map isoOfEpoch) with
  | error e => rfl
  | ok windowStart =>
      dsimp only
      cases hst : (syncPages client m runId windowStart fuel none ds).status with
      | done =>
          dsimp only [syncModelDs]
          exact syncPages_summary client m runId windowStart fuel none ds k
      | failed e =>
          dsimp only [syncModelDs]
          exact syncPages_summary client m runId windowStart fuel none ds k
      | fuelOut =>
          dsimp only [syncModelDs]
          exact syncPages_summary client m runId windowStart fuel none ds k

theorem runModelM_success (client : CallArgs → List OdooRecord) (m : ModelCfg)
    (runId : String) (fuel : Nat) (ds : DurableState) :
    (runModelM client m runId fuel ds).2 = true →
    (alookup runId (runModelM client m runId fuel ds).1.runs).map runSummary
      = some (m.name, RunStatus.success, none) := by
  intro hok
  unfold runModelM at hok ⊢
  dsimp only at hok ⊢
  cases hsm : syncModelM client m runId fuel (startRunDb ds m.name runId) with
  | error p =>
      obtain ⟨e, ds1⟩ := p
      rw [hsm] at hok
      exact Bool.noConfusion hok
  | ok ds1 =>
      show (alookup runId (finishRunDb (markLastSuccessDb ds1 m.name m.cursor_field runId)
          runId RunStatus.success none).runs).map runSummary
        = some (m.name, RunStatus.success, none)
      have hpres := syncModelM_summary client m runId fuel (startRunDb ds m.name runId) runId
      rw [hsm] at hpres
      simp only [syncModelDs] at hpres
      have hstart : (alookup runId (startRunDb ds m.name runId).runs).map runSummary
          = some (m.name, RunStatus.running, none) := by
        unfold startRunDb alookup
        rw [if_pos rfl]
        rfl
      rw [hstart] at hpres
      obtain ⟨r, hr, hsum⟩ := Option.map_eq_some'.mp hpres
      have hmodel : r.model = m.name := congrArg Prod.fst hsum
      unfold finishRunDb
      dsimp only
      rw [alookup_aupdate_self]
      have hruns : (markLastSuccessDb ds1 m.name m.cursor_field runId).runs = ds1.runs := rfl
      rw [hruns, hr]
      show some (r.model, RunStatus.success, (none : Option String))
        = some (m.name, RunStatus.success, none)
      rw [hmodel]

theorem runModelM_failed (client : CallArgs → List OdooRecord) (m : ModelCfg)
    (runId : String) (fuel : Nat) (ds : DurableState) :
    (runModelM client m runId fuel ds).2 = false →
    ∃ e, (alookup runId (runModelM client m runId fuel ds).1.runs).map runSummary
      = some (m.name, RunStatus.failed, some e) := by
  intro hko
  unfold runModelM at hko ⊢
  dsimp only at hko ⊢
  cases hsm : syncModelM client m runId fuel (startRunDb ds m.name runId) with
  | ok ds1 =>
      rw [hsm] at hko
      exact Bool.noConfusion hko
  | error p =>
      obtain ⟨e, ds1⟩ := p
      refine ⟨e, ?_⟩
      show (alookup runId (finishRunDb ds1 runId RunStatus.failed (some e)).runs).map runSummary
        = some (m.name, RunStatus.failed, some e)
      have hpres := syncModelM_summary client m runId fuel (startRunDb ds m.name runId) runId
      rw [hsm] at hpres
      simp only [syncModelDs] at hpres
      have hstart : (alookup runId (startRunDb ds m.name runId).runs).map runSummary
          = some (m.name, RunStatus.running, none) := by
        unfold startRunDb alookup
        rw [if_pos rfl]
        rfl
      rw [hstart] at hpres
      obtain ⟨r, hr, hsum⟩ := Option.map_eq_some'.mp hpres
      have hmodel : r.model = m.name := congrArg Prod.fst hsum
      unfold finishRunDb
      dsimp only
      rw [alookup_aupdate_self, hr]
      show some (r.model, RunStatus.failed, some e) = some (m.name, RunStatus.failed, some e)
      rw [hmodel]

theorem runModelM_frame (client : CallArgs → List OdooRecord) (m : ModelCfg)
    (runId : String) (fuel : Nat) (ds : DurableState) (k : String) (hk : k ≠ runId) :
    (alookup k (runModelM client m runId fuel ds).1.runs).map runSummary
      = (alookup k ds.runs).map runSummary := by
  unfold runModelM
  dsimp only
  have hstart : alookup k (startRunDb ds m.name runId).runs = alookup k ds.runs := by
    unfold startRunDb
    dsimp only
    simp only [alookup]
    rw [if_neg (fun hc => hk hc.symm)]
  cases hsm : syncModelM client m runId fuel (startRunDb ds m.name runId) with
  | ok ds1 =>
      show (alookup k (finishRunDb (markLastSuccessDb ds1 m.name m.cursor_field runId)
          runId RunStatus.success none).runs).map runSummary
        = (alookup k ds.runs).map runSummary
      have hpres := syncModelM_summary client m runId fuel (startRunDb ds m.name runId) k
      rw [hsm] at hpres
      simp only [syncModelDs] at hpres
      unfold finishRunDb
      dsimp only
      rw [alookup_aupdate_ne runId k _ hk]
      have hruns : (markLastSuccessDb ds1 m.name m.cursor_field runId).runs = ds1.runs := rfl
      rw [hruns, hpres, hstart]
  | error p =>
      obtain ⟨e, ds1⟩ := p
      show (alookup k (finishRunDb ds1 runId RunStatus.failed (some e)).runs).map runSummary
        = (alookup k ds.runs).map runSummary
      have hpres := syncModelM_summary client m runId fuel (startRunDb ds m.name runId) k
      rw [hsm] at hpres
      simp only [syncModelDs] at hpres
      unfold finishRunDb
      dsimp only
      rw [alookup_aupdate_ne runId k _ hk]
      rw [hpres, hstart]

theorem runAllM_spec (clientFor : ModelCfg → CallArgs → List OdooRecord) (fuel : Nat) :
    ∀ (models : List (ModelCfg × String)) (ds : DurableState),
      (models.map Prod.snd).Nodup →
      (∀ p ∈ models, alookup p.2 ds.runs = none) →
      ((∀ k : String, k ∉ models.map Prod.snd →
          (alookup k (runAllM clientFor fuel models ds).1.runs).map runSummary
            = (alookup k ds.runs).map runSummary) ∧
       (∀ p ∈ models,
          ((alookup p.2 (runAllM clientFor fuel models ds).1.runs).map runSummary
              = some (p.1.name, RunStatus.success, none)) ∨
          (∃ e, (alookup p.2 (runAllM clientFor fuel models ds).1.runs).map runSummary
              = some (p.1.name, RunStatus.failed, some e))) ∧
       ((runAllM clientFor fuel models ds).2 = [] ↔
          ∀ p ∈ models, ¬ ∃ e,
            (alookup p.2 (runAllM clientFor fuel models ds).1.runs).map runSummary
              = some (p.1.name, RunStatus.failed, some e))) := by
  intro models
  induction models with
  | nil =>
      intro ds _ _
      refine ⟨fun k _ => rfl, fun p hp => absurd hp (List.not_mem_nil p), ?_⟩
      constructor
      · intro _ p hp
        exact absurd hp (List.not_mem_nil p)
      · intro _
        rfl
  | cons q rest ih =>
      intro ds hnodup hfresh
      obtain ⟨m, rid⟩ := q
      rw [List.map_cons, List.nodup_cons] at hnodup
      obtain ⟨hridnot, hnodup'⟩ := hnodup
      have hds1 : runAllM clientFor fuel ((m, rid) :: rest) ds
          = ((runAllM clientFor fuel rest (runModelM (clientFor m) m rid fuel ds).1).1,
             (if (runModelM (clientFor m) m rid fuel ds).2 then [] else [m.name])
               ++ (runAllM clientFor fuel rest (runModelM (clientFor m) m rid fuel ds).1).2) := by
        rfl
      have hfresh1 : ∀ p ∈ rest,
          alookup p.2 (runModelM (clientFor m) m rid fuel ds).1.runs = none := by
        intro p hp
        have hne : p.2 ≠ rid := by
          intro hc
          exact hridnot (List.mem_map.mpr ⟨p, hp, hc⟩)
        have hframe := runModelM_frame (clientFor m) m rid fuel ds p.2 hne
        have hnone := hfresh p (List.mem_cons_of_mem _ hp)
        rw [hnone] at hframe
        simp at hframe
        exact hframe
      obtain ⟨ih1, ih2, ih3⟩ := ih (runModelM (clientFor m) m rid fuel ds).1 hnodup' hfresh1
      have hridchain : (alookup rid (runAllM clientFor fuel rest
          (runModelM (clientFor m) m rid fuel ds).1).1.runs).map runSummary
          = (alookup rid (runModelM (clientFor m) m rid fuel ds).1.runs).map runSummary :=
        ih1 rid hridnot
      refine ⟨?_, ?_, ?_⟩
      · intro k hk
        rw [List.map_cons, List.mem_cons] at hk
        push_neg at hk
        rw [hds1]
        dsimp only
        rw [ih1 k hk.2]
        exact runModelM_frame (clientFor m) m rid fuel ds k hk.1
      · intro p hp
        rw [List.mem_cons] at hp
        rcases hp with hp | hp
        · subst hp
          rw [hds1]
          dsimp only
          rw [hridchain]
          cases hok : (runModelM (clientFor m) m rid fuel ds).2 with
          | true => exact Or.inl (runModelM_success (clientFor m) m rid fuel ds hok)
          | false => exact Or.inr (runModelM_failed (clientFor m) m rid fuel ds hok)
        · have := ih2 p hp
          rw [hds1]
          dsimp only
          exact this
      · rw [hds1]
        dsimp only
        constructor
        · intro hemp p hp
          cases hok : (runModelM (clientFor m) m rid fuel ds).2 with
          | false =>
              rw [hok] at hemp
              simp at hemp
          | true =>
              rw [hok] at hemp
              simp only [if_pos rfl, List.nil_append] at hemp
              rw [List.mem_cons] at hp
              rcases hp with hp | hp
              · subst hp
                intro ⟨e, he⟩
                have hsucc := runModelM_success (clientFor m) m rid fuel ds hok
                rw [hridchain, hsucc] at he
                injection he with hpair
                have hstat : RunStatus.success = RunStatus.failed :=
                  congrArg (fun t => t.2.1) hpair
                exact RunStatus.noConfusion hstat
              · exact (ih3.mp hemp) p hp
        · intro hall
          cases hok : (runModelM (clientFor m) m rid fuel ds).2 with
          | false =>
              obtain ⟨e, he⟩ := runModelM_failed (clientFor m) m rid fuel ds hok
              have hfin : (alookup rid (runAllM clientFor fuel rest
                  (runModelM (clientFor m) m rid fuel ds).1).1.runs).map runSummary
                  = some (m.name, RunStatus.failed, some e) := by
                rw [hridchain]; exact he
              exact absurd ⟨e, hfin⟩ (hall (m, rid) (List.mem_cons_self _ _))
          | true =>
              have hrest : (runAllM clientFor fuel rest
                  (runModelM (clientFor m) m rid fuel ds).1).2 = [] :=
                ih3.mpr (fun p hp => hall p (List.mem_cons_of_mem _ hp))
              rw [hrest]
              simp

/-- C8. Failures are isolated per entity: every configured model's run row
is finalized (as `success` with no error text, or as `failed` with the
captured error text) — a failing model does not prevent later models from
being attempted — and the process exits non-zero exactly when at least one
model's run failed.  The run ids are the fresh UUIDs `runModel` draws. -/
theorem C8_entity_failure_isolation (clientFor : ModelCfg → CallArgs → List OdooRecord)
    (fuel : Nat) (models : List (ModelCfg × String)) (ds : DurableState)
    (hnodup : (models.map Prod.snd).Nodup)
    (hfresh : ∀ p ∈ models, alookup p.2 ds.runs = none) :
    (∀ p ∈ models,
        ((alookup p.2 (runResult clientFor fuel models ds).1.runs).map runSummary
            = some (p.1.name, RunStatus.success, none)) ∨
        (∃ e, (alookup p.2 (runResult clientFor fuel models ds).1.runs).map runSummary
            = some (p.1.name, RunStatus.failed, some e))) ∧
    (processExitCode (runResult clientFor fuel models ds).2 = 1 ↔
        ∃ p ∈ models, ∃ e,
          (alookup p.2 (runResult clientFor fuel models ds).1.runs).map runSummary
            = some (p.1.name, RunStatus.failed, some e)) := by
  obtain ⟨h1, h2, h3⟩ := runAllM_spec clientFor fuel models ds hnodup hfresh
  have hfst : (runResult clientFor fuel models ds).1
      = (runAllM clientFor fuel models ds).1 := rfl
  constructor
  · intro p hp
    rw [hfst]
    exact h2 p hp
  · have hkey : processExitCode (runResult clientFor fuel models ds).2 = 1
        ↔ ¬ (runAllM clientFor fuel models ds).2 = [] := by
      unfold runResult processExitCode
      dsimp only
      by_cases hemp : (runAllM clientFor fuel models ds).2.isEmpty = true
      · rw [if_pos hemp]
        simp [List.isEmpty_iff.mp hemp]
      · rw [if_neg hemp]
        have hne : (runAllM clientFor fuel models ds).2 ≠ [] := by
          intro hc
          exact hemp (by simp [hc])
        simp [hne]
    rw [hkey, hfst]
    constructor
    · intro hne
      by_contra hnex
      apply hne
      apply h3.mpr
      intro p hp hex
      exact hnex ⟨p, hp, hex⟩
    · rintro ⟨p, hp, e, he⟩ hemp
      exact (h3.mp hemp) p hp ⟨e, he⟩

/-- Model configuration used by the C8 witness (always succeeds: its
endpoint has no data). -/
def c8ModelA : ModelCfg :=
  { name := "model.a", fields := ["id", "write_date"], domain := [],
    cursor_field := "write_date", overlap_seconds := 0, page_size := 2 }

/-- Model configuration used by the C8 witness (always fails: its endpoint
serves a record with an invalid id). -/
def c8ModelB : ModelCfg :=
  { name := "model.b", fields := ["id", "write_date"], domain := [],
    cursor_field := "write_date", overlap_seconds := 0, page_size := 2 }

/-- Endpoints for the C8 witness. -/
def c8ClientFor (m : ModelCfg) : CallArgs → List OdooRecord :=
  fun _ => if m.name = "model.b" then [⟨JVal.jother, []⟩] else []

/-- The C8 witness's model list with its fresh run ids. -/
def c8Models : List (ModelCfg × String) := [(c8ModelA, "run-a"), (c8ModelB, "run-b")]

/-- Witness for C8: with one healthy and one failing model, the failing
model's run row is recorded and the process exit code is 1. -/
theorem C8_entity_failure_isolation_witness :
    processExitCode (runResult c8ClientFor 3 c8Models emptyDs).2 = 1 := by
  have h := C8_entity_failure_isolation c8ClientFor 3 c8Models emptyDs
    (by decide) (by decide)
  exact h.2.mpr ⟨(c8ModelB, "run-b"), by decide,
    "Record in model model.b has an invalid id value.", by decide⟩
